import Mathlib

/-!
# Connectionless direction-finding receiver: sync lifecycle

A shallow embedding of
`samples/bluetooth/direction_finding_connectionless_rx/src/main.c`.

* File-scope variables of `main.c` are the fields of `State`.
* Each callback registered with the Bluetooth host (`scan_recv`, `sync_cb`,
  `term_cb`, `recv_cb`, `cte_recv_cb`) is a function `State → State`.
* The `do { ... } while (true)` loop of `main` is a step function `mainStep`
  over a program counter `Pc`; one step is one statement of the loop that
  touches a variable shared with the callbacks, so that callbacks can be
  interleaved between any two of them.
* Everything the program does to the outside world (requests to the Bluetooth
  host, `printk` lines, semaphore operations, watchdog feeds) is appended to
  the ghost field `State.trace`.
* Values that come from outside (return codes of the host, the time-out of a
  semaphore wait) are inputs of the step function.
-/

namespace DfRx

/-! ## Constants and arithmetic -/

/-- The macro `SYNC_CREATE_TIMEOUT_INTERVAL_NUM` (main.c line 40). -/
def SYNC_CREATE_TIMEOUT_INTERVAL_NUM : Nat := 7

/-- Number of values of a 16-bit unsigned integer. -/
def UINT16_MOD : Nat := 2 ^ 16

/-- Number of values of a 32-bit unsigned integer. -/
def UINT32_MOD : Nat := 2 ^ 32

/-- Largest value of a 32-bit `int` (the type the `uint16_t` interval is
promoted to in the arithmetic of `sync_create_timeout_get`). -/
def INT_MAX : Nat := 2 ^ 31 - 1

/-- Modelled from the spec: the macro `BT_GAP_PER_ADV_INTERVAL_TO_MS` lives in
`zephyr/bluetooth/gap.h`, which is not among the sources. The interval is in
units of 1.25 ms and the conversion to milliseconds is `interval * 5 / 4` with
integer division (the same expression `sync_cb` prints as the interval in ms,
main.c line 165). The product is reduced modulo `2 ^ 32`, the width of the
machine arithmetic. -/
def BT_GAP_PER_ADV_INTERVAL_TO_MS (interval : Nat) : Nat :=
  (interval * 5 % UINT32_MOD) / 4

/-- The function `sync_create_timeout_get` (main.c lines 100-103). The parameter is a
`uint16_t`, the result a `uint32_t`. -/
def sync_create_timeout_get (interval : Nat) : Nat :=
  (BT_GAP_PER_ADV_INTERVAL_TO_MS (interval % UINT16_MOD) * SYNC_CREATE_TIMEOUT_INTERVAL_NUM)
    % UINT32_MOD

/-! ## Data passed between the host and the application -/

/-- The type `bt_addr_le_t`: address type and 48-bit address value. -/
structure bt_addr_le_t where
  type : Nat
  a : Nat
deriving DecidableEq, Repr

/-- The fields of `struct bt_le_scan_recv_info` read by `scan_recv`. -/
structure bt_le_scan_recv_info where
  addr : bt_addr_le_t
  sid : Nat
  interval : Nat
deriving DecidableEq, Repr

/-- The fields of `struct bt_le_per_adv_sync_synced_info` read by `sync_cb`. -/
structure bt_le_per_adv_sync_synced_info where
  addr : bt_addr_le_t
  interval : Nat
  phy : Nat
deriving DecidableEq, Repr

/-- The fields of `struct bt_le_per_adv_sync_term_info` read by `term_cb`. -/
structure bt_le_per_adv_sync_term_info where
  addr : bt_addr_le_t
deriving DecidableEq, Repr

/-- The fields of `struct bt_le_per_adv_sync_recv_info` read by `recv_cb`,
with the bytes of the received buffer. -/
structure bt_le_per_adv_sync_recv_info where
  addr : bt_addr_le_t
  tx_power : Int
  rssi : Int
  cte_type : Nat
  data : List Nat
deriving DecidableEq, Repr

/-- One IQ sample of a CTE report. -/
structure bt_hci_le_iq_sample where
  i : Int
  q : Int
deriving DecidableEq, Repr, Inhabited

/-- The type `struct bt_df_per_adv_sync_iq_samples_report` as read by `cte_recv_cb`. -/
structure bt_df_per_adv_sync_iq_samples_report where
  chan_idx : Nat
  rssi : Int
  rssi_ant_id : Nat
  cte_type : Nat
  slot_durations : Nat
  packet_status : Nat
  sample_count : Nat
  sample : List bt_hci_le_iq_sample
deriving DecidableEq, Repr

/-- The type `struct bt_le_per_adv_sync_param` as filled in by `create_sync`. -/
structure bt_le_per_adv_sync_param where
  addr : bt_addr_le_t
  options : Nat
  sid : Nat
  skip : Nat
  timeout : Nat
deriving DecidableEq, Repr

/-- The option `BT_LE_PER_ADV_SYNC_OPT_SYNC_ONLY_CONST_TONE_EXT` is `BIT(6)`. -/
def BT_LE_PER_ADV_SYNC_OPT_SYNC_ONLY_CONST_TONE_EXT : Nat := 64

/-- The value `BT_DF_CTE_CRC_OK`, the packet status of a good CTE report. -/
def BT_DF_CTE_CRC_OK : Nat := 0

/-- The value `BT_DF_CTE_CRC_ERR_CTE_BASED_TIME`, a CRC-error packet status. -/
def BT_DF_CTE_CRC_ERR_CTE_BASED_TIME : Nat := 1

/-- The function `phy2str` (main.c lines 105-114). -/
def phy2str (phy : Nat) : String :=
  match phy with
  | 0 => "No packets"
  | 1 => "LE 1M"
  | 2 => "LE 2M"
  | 4 => "LE Coded"
  | _ => "Unknown"

/-- The function `cte_type2str` (main.c lines 116-125); the four cases are the bit values
`BIT(0)`, `BIT(1)`, `BIT(2)` and `0`. -/
def cte_type2str (type : Nat) : String :=
  match type with
  | 1 => "AOA"
  | 2 => "AOD 1 [us]"
  | 4 => "AOD 2 [us]"
  | 0 => ""
  | _ => "Unknown"

/-! ## Observable events -/

/-- The three semaphores of main.c lines 54-56. -/
inductive Sem where
  | per_adv
  | per_sync
  | per_sync_lost
deriving DecidableEq, Repr

/-- Requests `main` sends to the Bluetooth host in its loop. -/
inductive Request where
  /-- The call `bt_le_scan_start(&param, NULL)` in `scan_enable`. -/
  | scan_start
  /-- The call `bt_le_per_adv_sync_create(&sync_create_param, &sync)` in `create_sync`. -/
  | sync_create (param : bt_le_per_adv_sync_param)
  /-- The call `bt_le_per_adv_sync_delete(sync)` in `delete_sync`. -/
  | sync_delete (sync : Option Nat)
  /-- The call `bt_df_per_adv_sync_cte_rx_enable(sync, &cte_rx_params)` in
  `enable_cte_rx`; the parameter block is a compile-time constant. -/
  | cte_rx_enable (sync : Option Nat)
  /-- The call `bt_le_scan_stop()` in `scan_disable`. -/
  | scan_stop
deriving DecidableEq, Repr

/-- The `printk` lines of the modelled functions, with their arguments. -/
inductive Log where
  | synced (sync : Nat) (addr : bt_addr_le_t) (interval ms : Nat) (phy : String)
  | sync_terminated (sync : Nat) (addr : bt_addr_le_t)
  | per_adv_data (sync : Nat) (addr : bt_addr_le_t) (tx_power rssi : Int) (cte : String)
      (len : Nat) (data : List Nat)
  | iq_begin
  | iq_fields (chan_idx : Nat) (rssi : Int) (rssi_ant_id cte_type slot_durations
      packet_status sample_count : Nat)
  | iq_sample (i q : Int)
  | iq_end
  | creating_sync
  | deleting_sync
  | enabling_cte
  | cte_enabled
  | start_scanning
  | scan_disabling
  | waiting_per_adv
  | found_per_adv
  | waiting_per_sync
  | terminated
  | sync_established
  | waiting_sync_lost
  | sync_lost
  | success
  | failed (err : Int)
deriving DecidableEq, Repr

/-- One externally visible action of the program. -/
inductive Event where
  | log (l : Log)
  | req (r : Request) (ret : Int)
  | give (sem : Sem)
  | take (sem : Sem) (timeout_ms : Option Nat) (ret : Int)
  | wdt_feed (dev : Nat) (channel : Int)
deriving DecidableEq, Repr

/-- The host requests contained in a trace, in order. -/
def requests (t : List Event) : List Request :=
  t.filterMap (fun e => match e with
    | Event.req r _ => some r
    | _ => none)

/-- The `printk` lines contained in a trace, in order. -/
def logs (t : List Event) : List Log :=
  t.filterMap (fun e => match e with
    | Event.log l => some l
    | _ => none)

/-- The number of watchdog feeds in a trace. -/
def feeds (t : List Event) : Nat :=
  t.countP (fun e => match e with
    | Event.wdt_feed _ _ => true
    | _ => false)

/-- The number of `k_sem_give` calls on `sem` in a trace. -/
def gives (sem : Sem) (t : List Event) : Nat :=
  t.countP (fun e => match e with
    | Event.give x => decide (x = sem)
    | _ => false)

/-- Whether a request is a delete-sync request. -/
def Request.isDelete : Request → Bool
  | .sync_delete _ => true
  | _ => false

/-- Whether a request is a CTE-enable request. -/
def Request.isCteEnable : Request → Bool
  | .cte_rx_enable _ => true
  | _ => false

/-- Whether a request is a scan-stop request. -/
def Request.isScanStop : Request → Bool
  | .scan_stop => true
  | _ => false

/-! ## Semaphores -/

/-- Modelled from the spec: `k_sem_give` is part of the kernel, which is not
among the sources. The three semaphores are defined with
`K_SEM_DEFINE(sem, 0, 1)` (initial count 0, limit 1), the "binary semaphores"
of the spec: a give raises the count unless it is at the limit. -/
def k_sem_give (count : Nat) : Nat :=
  if count < 1 then count + 1 else count

/-- Modelled from the spec: `k_sem_take` is part of the kernel, which is not
among the sources. With an available semaphore the take succeeds at once and
returns 0. With an empty semaphore the caller sleeps; `abort` is the non-zero
code with which the kernel ends the sleep (the time-out of a bounded wait), and
`abort = 0` means the sleep has not ended: the result is `none`, the thread
stays blocked. -/
def k_sem_take (count : Nat) (abort : Int) : Option (Nat × Int) :=
  if 0 < count then some (count - 1, 0)
  else if abort ≠ 0 then some (count, abort)
  else none

/-! ## Program state -/

/-- Program points of the loop of `main` (main.c lines 562-612). -/
inductive Pc where
  /-- Line 563: `scan_enable()`. -/
  | scanEnable
  /-- Lines 565-566: `per_adv_found = false`. -/
  | resetFound
  /-- Lines 567-572: `k_sem_take(&sem_per_adv, K_FOREVER)`. -/
  | takeAdv
  /-- Line 574: `sync_wait = true`. -/
  | setWait
  /-- Line 575: `sync_terminated = false`. -/
  | clearTerminated
  /-- Lines 577-579: `create_sync()` and the line printed before the wait. -/
  | createSync
  /-- Line 580: `k_sem_take(&sem_per_sync, K_MSEC(sync_create_timeout_ms))`. -/
  | takeSync
  /-- Lines 581-586 and 597: the test `err != 0 || sync_terminated`. -/
  | checkSync
  /-- Line 588: `sync_wait = false` on the abandon path. -/
  | failClearWait
  /-- Lines 590-595: `delete_sync()`, then `return` or `continue`. -/
  | deleteSync
  /-- Line 598: `sync_wait = false` on the synced path. -/
  | okClearWait
  /-- Line 600: `enable_cte_rx()`. -/
  | enableCte
  /-- Lines 603-605: `scan_disable()` and the line printed before the wait. -/
  | scanDisable
  /-- Lines 606-611: `k_sem_take(&sem_per_sync_lost, K_FOREVER)`. -/
  | takeLost
  /-- After a `return` of `main`. -/
  | returned
deriving DecidableEq, Repr

/-- The file-scope variables of main.c, the control state of `main`, and the
trace of observable events. -/
structure State where
  sync_create_param : bt_le_per_adv_sync_param
  sync : Option Nat
  per_addr : bt_addr_le_t
  per_adv_found : Bool
  scan_enabled : Bool
  sync_wait : Bool
  sync_terminated : Bool
  per_sid : Nat
  sync_create_timeout_ms : Nat
  sem_per_adv : Nat
  sem_per_sync : Nat
  sem_per_sync_lost : Nat
  wdt_channel_id : Int
  wdt : Option Nat
  lol : Int
  /-- Program point of `main`. -/
  pc : Pc
  /-- The local variable `err` of `main`. -/
  err : Int
  /-- Observable events so far, oldest first. -/
  trace : List Event
deriving DecidableEq, Repr

/-- Append events to the trace. -/
def State.emit (s : State) (es : List Event) : State :=
  { s with trace := s.trace ++ es }

/-! ## Callbacks registered with the Bluetooth host -/

/-- The function `sync_cb` (main.c lines 155-168): prints the synced line and
gives `sem_per_sync`, whatever the state of the controller. -/
def sync_cb (sync : Nat) (info : bt_le_per_adv_sync_synced_info) (s : State) : State :=
  { s with
    sem_per_sync := k_sem_give s.sem_per_sync
    trace := s.trace ++
      [Event.log (.synced sync info.addr info.interval (info.interval * 5 / 4) (phy2str info.phy)),
       Event.give .per_sync] }

/-- The function `term_cb` (main.c lines 170-186). -/
def term_cb (sync : Nat) (info : bt_le_per_adv_sync_term_info) (s : State) : State :=
  if s.sync_wait then
    { s with
      sync_terminated := true
      sem_per_sync := k_sem_give s.sem_per_sync
      trace := s.trace ++ [Event.log (.sync_terminated sync info.addr), Event.give .per_sync] }
  else
    { s with
      sem_per_sync_lost := k_sem_give s.sem_per_sync_lost
      trace := s.trace ++ [Event.log (.sync_terminated sync info.addr), Event.give .per_sync_lost] }

/-- The function `recv_cb` (main.c lines 188-202): prints one line; the data
bytes are kept as they are instead of being rendered in hexadecimal. -/
def recv_cb (sync : Nat) (info : bt_le_per_adv_sync_recv_info) (s : State) : State :=
  s.emit [Event.log (.per_adv_data sync info.addr info.tx_power info.rssi
    (cte_type2str info.cte_type) info.data.length info.data)]

/-- The lines printed by the sample loop of `cte_recv_cb` (main.c lines 389-391):
one line for each index below `sample_count`. -/
def iq_sample_lines (report : bt_df_per_adv_sync_iq_samples_report) : List Event :=
  (List.range report.sample_count).map (fun i =>
    Event.log (.iq_sample (report.sample.getD i default).i (report.sample.getD i default).q))

/-- The record `cte_recv_cb` prints for a report (main.c lines 384-393). -/
def iq_record (report : bt_df_per_adv_sync_iq_samples_report) : List Event :=
  [Event.log .iq_begin,
   Event.log (.iq_fields report.chan_idx report.rssi report.rssi_ant_id report.cte_type
     report.slot_durations report.packet_status report.sample_count)]
  ++ iq_sample_lines report ++ [Event.log .iq_end]

/-- The function `cte_recv_cb` (main.c lines 334-394). A report whose
`packet_status` is non-zero returns at line 338, before the watchdog feed. -/
def cte_recv_cb (report : bt_df_per_adv_sync_iq_samples_report) (s : State) : State :=
  if report.packet_status ≠ 0 then s
  else
    let s1 := match s.wdt with
      | some dev => s.emit [Event.wdt_feed dev s.wdt_channel_id]
      | none => s
    { s1 with lol := 1, trace := s1.trace ++ iq_record report }

/-- The function `scan_recv` (main.c lines 396-428). The advertising data is
parsed into the local buffer `name` only, which nothing reads. -/
def scan_recv (info : bt_le_scan_recv_info) (s : State) : State :=
  if !s.per_adv_found && info.interval != 0 then
    { s with
      sync_create_timeout_ms := sync_create_timeout_get info.interval
      per_adv_found := true
      per_sid := info.sid
      per_addr := info.addr
      sem_per_adv := k_sem_give s.sem_per_adv
      trace := s.trace ++ [Event.give .per_adv] }
  else s

/-- A notification delivered by the host, with its arguments. -/
inductive Callback where
  | scan (info : bt_le_scan_recv_info)
  | synced (sync : Nat) (info : bt_le_per_adv_sync_synced_info)
  | term (sync : Nat) (info : bt_le_per_adv_sync_term_info)
  | recv (sync : Nat) (info : bt_le_per_adv_sync_recv_info)
  | cte (report : bt_df_per_adv_sync_iq_samples_report)
deriving DecidableEq, Repr

/-- Run the callback registered for a notification (main.c lines 89-98). -/
def deliver (c : Callback) (s : State) : State :=
  match c with
  | .scan info => scan_recv info s
  | .synced sync info => sync_cb sync info s
  | .term sync info => term_cb sync info s
  | .recv sync info => recv_cb sync info s
  | .cte report => cte_recv_cb report s

/-- Whether a notification is a sync-established or sync-terminated one. -/
def Callback.isSyncEvent : Callback → Bool
  | .synced _ _ => true
  | .term _ _ => true
  | _ => false

/-! ## The functions called by the loop of `main` -/

/-- What an external call made by a step of `main` hands back: the return
code, and the sync handle `bt_le_per_adv_sync_create` stores on success. For a
semaphore wait `code` is the code with which the kernel ends the sleep. -/
structure Ext where
  code : Int
  out : Nat
deriving DecidableEq, Repr

/-- The function `scan_enable` (main.c lines 502-524), with its return value. -/
def scan_enable (ret : Int) (s : State) : State × Int :=
  if !s.scan_enabled then
    let s1 := s.emit [Event.log .start_scanning, Event.req .scan_start ret]
    if ret ≠ 0 then (s1.emit [Event.log (.failed ret)], ret)
    else ({ s1 with scan_enabled := true, trace := s1.trace ++ [Event.log .success] }, 0)
  else (s, 0)

/-- The function `scan_disable` (main.c lines 526-539). -/
def scan_disable (ret : Int) (s : State) : State :=
  let s1 := s.emit [Event.log .scan_disabling, Event.req .scan_stop ret]
  if ret ≠ 0 then s1.emit [Event.log (.failed ret)]
  else { s1 with scan_enabled := false, trace := s1.trace ++ [Event.log .success] }

/-- The parameter block `create_sync` builds (main.c lines 435-440). -/
def create_param (s : State) : bt_le_per_adv_sync_param :=
  { addr := s.per_addr
    options := BT_LE_PER_ADV_SYNC_OPT_SYNC_ONLY_CONST_TONE_EXT
    sid := s.per_sid
    skip := 0
    timeout := 0xa }

/-- The function `create_sync` (main.c lines 430-447). It returns nothing: a
rejected request is only printed. -/
def create_sync (x : Ext) (s : State) : State :=
  let s1 := { s with
    sync_create_param := create_param s
    trace := s.trace ++ [Event.log .creating_sync, Event.req (.sync_create (create_param s)) x.code] }
  if x.code ≠ 0 then s1.emit [Event.log (.failed x.code)]
  else { s1 with sync := some x.out, trace := s1.trace ++ [Event.log .success] }

/-- The function `delete_sync` (main.c lines 449-462), with its return value. -/
def delete_sync (ret : Int) (s : State) : State × Int :=
  let s1 := s.emit [Event.log .deleting_sync, Event.req (.sync_delete s.sync) ret]
  if ret ≠ 0 then (s1.emit [Event.log (.failed ret)], ret)
  else (s1.emit [Event.log .success], 0)

/-- The function `enable_cte_rx` (main.c lines 464-487). -/
def enable_cte_rx (ret : Int) (s : State) : State :=
  let s1 := s.emit [Event.log .enabling_cte, Event.req (.cte_rx_enable s.sync) ret]
  if ret ≠ 0 then s1.emit [Event.log (.failed ret)]
  else s1.emit [Event.log .cte_enabled]

/-! ## The loop of `main` -/

/-- One step of the loop of `main` (main.c lines 562-612). The result is
`none` when `main` cannot move: it sleeps on an empty semaphore, or it has
returned. -/
def mainStep (x : Ext) (s : State) : Option State :=
  match s.pc with
  | .scanEnable =>
      some { (scan_enable x.code s).1 with pc := .resetFound }
  | .resetFound =>
      some { s with
        per_adv_found := false
        pc := .takeAdv
        trace := s.trace ++ [Event.log .waiting_per_adv] }
  | .takeAdv =>
      match k_sem_take s.sem_per_adv x.code with
      | none => none
      | some (count, err) =>
          let s1 := { s with
            sem_per_adv := count
            err := err
            trace := s.trace ++ [Event.take .per_adv none err] }
          if err ≠ 0 then
            some { s1 with pc := .returned, trace := s1.trace ++ [Event.log (.failed err)] }
          else
            some { s1 with pc := .setWait, trace := s1.trace ++ [Event.log .found_per_adv] }
  | .setWait =>
      some { s with sync_wait := true, pc := .clearTerminated }
  | .clearTerminated =>
      some { s with sync_terminated := false, pc := .createSync }
  | .createSync =>
      let s1 := create_sync x s
      some { s1 with pc := .takeSync, trace := s1.trace ++ [Event.log .waiting_per_sync] }
  | .takeSync =>
      match k_sem_take s.sem_per_sync x.code with
      | none => none
      | some (count, err) =>
          some { s with
            sem_per_sync := count
            err := err
            pc := .checkSync
            trace := s.trace ++ [Event.take .per_sync (some s.sync_create_timeout_ms) err] }
  | .checkSync =>
      if s.err ≠ 0 || s.sync_terminated then
        if s.err ≠ 0 then
          some { s with pc := .failClearWait, trace := s.trace ++ [Event.log (.failed s.err)] }
        else
          some { s with pc := .failClearWait, trace := s.trace ++ [Event.log .terminated] }
      else
        some { s with pc := .okClearWait, trace := s.trace ++ [Event.log .sync_established] }
  | .failClearWait =>
      some { s with sync_wait := false, pc := .deleteSync }
  | .deleteSync =>
      let r := delete_sync x.code s
      if r.2 ≠ 0 then some { r.1 with err := r.2, pc := .returned }
      else some { r.1 with err := r.2, pc := .scanEnable }
  | .okClearWait =>
      some { s with sync_wait := false, pc := .enableCte }
  | .enableCte =>
      some { enable_cte_rx x.code s with pc := .scanDisable }
  | .scanDisable =>
      let s1 := scan_disable x.code s
      some { s1 with pc := .takeLost, trace := s1.trace ++ [Event.log .waiting_sync_lost] }
  | .takeLost =>
      match k_sem_take s.sem_per_sync_lost x.code with
      | none => none
      | some (count, err) =>
          let s1 := { s with
            sem_per_sync_lost := count
            err := err
            trace := s.trace ++ [Event.take .per_sync_lost none err] }
          if err ≠ 0 then
            some { s1 with pc := .returned, trace := s1.trace ++ [Event.log (.failed err)] }
          else
            some { s1 with pc := .scanEnable, trace := s1.trace ++ [Event.log .sync_lost] }
  | .returned => none

/-! ## Interleavings -/

/-- One scheduling decision: `main` runs its next step, or the host delivers a
notification. -/
inductive Action where
  | main (x : Ext)
  | cb (c : Callback)
deriving DecidableEq, Repr

/-- Perform one action. -/
def step (a : Action) (s : State) : Option State :=
  match a with
  | .main x => mainStep x s
  | .cb c => some (deliver c s)

/-- Perform a schedule, a list of actions, from left to right; `none` when a
step of `main` in it cannot be taken. -/
def exec : List Action → State → Option State
  | [], s => some s
  | a :: as, s => (step a s).bind (exec as)

/-- Deliver a list of notifications, oldest first. -/
def deliverAll (cs : List Callback) (s : State) : State :=
  cs.foldl (fun st c => deliver c st) s

/-- A step of `main` together with the notifications delivered after it and
before the next step of `main`. -/
structure Slot where
  x : Ext
  after : List Callback
deriving DecidableEq, Repr

/-- The actions of a slot. -/
def Slot.actions (p : Slot) : List Action :=
  .main p.x :: p.after.map .cb

/-- Run a list of slots: any interleaving of `main` with the callbacks, from a
step of `main` on, is of this form. -/
def runSlots (ps : List Slot) (s : State) : Option State :=
  exec (ps.flatMap Slot.actions) s

/-! ## Concrete runs -/

/-- The state in which `main` enters its loop (main.c lines 541-561): the
file-scope variables have their zero initial values, `scan_enabled` was set to
false at line 556, and `wdt_init` has stored the watchdog device and channel. -/
def boot (wdt : Option Nat) (channel : Int) : State :=
  { sync_create_param := { addr := { type := 0, a := 0 }, options := 0, sid := 0, skip := 0,
                           timeout := 0 }
    sync := none
    per_addr := { type := 0, a := 0 }
    per_adv_found := false
    scan_enabled := false
    sync_wait := false
    sync_terminated := false
    per_sid := 0
    sync_create_timeout_ms := 0
    sem_per_adv := 0
    sem_per_sync := 0
    sem_per_sync_lost := 0
    wdt_channel_id := channel
    wdt := wdt
    lol := 0
    pc := .scanEnable
    err := 0
    trace := [] }

/-- The value of `EAGAIN`: `k_sem_take` returns `-EAGAIN` when a wait times out. -/
def EAGAIN : Int := 11

/-- An accepted request, or a wait that is not cut short. -/
def ok : Ext := { code := 0, out := 1 }

/-- The time-out of a semaphore wait. -/
def timedOut : Ext := { code := -EAGAIN, out := 0 }

/-- An advertiser with periodic interval 100 (125 ms) and advertising set 3. -/
def adv100 : bt_le_scan_recv_info :=
  { addr := { type := 1, a := 0xC0FFEE }, sid := 3, interval := 100 }

/-- A scan report without periodic advertising (interval 0). -/
def adv0 : bt_le_scan_recv_info :=
  { addr := { type := 0, a := 0xABCDEF }, sid := 0, interval := 0 }

/-- The sync-established notification for `adv100`. -/
def synced100 : Callback :=
  .synced 0 { addr := adv100.addr, interval := 100, phy := 1 }

/-- The sync-terminated notification for `adv100`. -/
def term100 : Callback :=
  .term 0 { addr := adv100.addr }

/-- The first seven steps of a cycle, from `scan_enable` to the end of the
confirmation wait: the scan report of `adv100` arrives during the wait for a
candidate, and `confirm` is what happens during the confirmation wait. -/
def cycleHead (waitEnd : Ext) (confirm : List Callback) : List Slot :=
  [ { x := ok, after := [] },
    { x := ok, after := [.scan adv0, .scan adv100] },
    { x := ok, after := [] },
    { x := ok, after := [] },
    { x := ok, after := [] },
    { x := ok, after := confirm },
    { x := waitEnd, after := [] } ]

/-- A step of `main` whose external call succeeds, with no notification after it. -/
def okSlot : Slot := { x := ok, after := [] }

/-- The state at the test of line 581 in the first cycle after boot, when
nothing arrived before the time-out of the confirmation wait. -/
def timedOutAt : State :=
  (runSlots (cycleHead timedOut []) (boot (some 7) 0)).getD (boot none 0)

/-- A second advertiser, with periodic interval 80 (100 ms) and advertising set 5. -/
def adv80 : bt_le_scan_recv_info :=
  { addr := { type := 1, a := 0xBEEF }, sid := 5, interval := 80 }

/-- A CTE report with a CRC error and two samples. -/
def crcErrReport : bt_df_per_adv_sync_iq_samples_report :=
  { chan_idx := 5, rssi := -60, rssi_ant_id := 0, cte_type := 1, slot_durations := 2,
    packet_status := BT_DF_CTE_CRC_ERR_CTE_BASED_TIME, sample_count := 2,
    sample := [{ i := 10, q := -3 }, { i := -7, q := 4 }] }

/-- A good CTE report with two samples. -/
def okReport : bt_df_per_adv_sync_iq_samples_report :=
  { crcErrReport with packet_status := BT_DF_CTE_CRC_OK }

/-- The host rejects a request with `-EIO`. -/
def rejected : Ext := { code := -5, out := 0 }

/-- The first six steps of a cycle in which the host rejects the create
request: `main` is then at the confirmation wait. -/
def rejectedCreateHead : List Slot :=
  [ okSlot, { x := ok, after := [.scan adv0, .scan adv100] }, okSlot, okSlot, okSlot,
    { x := rejected, after := [] } ]

/-- The state in which `main` is about to call `create_sync` in the first cycle
after boot, with `adv100` captured. -/
def createAt : State :=
  (runSlots (rejectedCreateHead.take 5) (boot (some 7) 0)).getD (boot none 0)

/-- The state in which `main` is about to call `delete_sync` in the first cycle
after boot, after the confirmation wait timed out. -/
def deleteAt : State :=
  (runSlots [okSlot, okSlot] timedOutAt).getD (boot none 0)

/-- The state in which `main` starts the confirmation wait in the first cycle
after boot. -/
def waitAt : State :=
  (runSlots ((cycleHead timedOut []).take 6) (boot (some 7) 0)).getD (boot none 0)

/-- A run of two cycles after boot. In the first the confirmation wait times
out, and the sync-established notification arrives late, after `main` has taken
the abandon branch at line 581; the delete succeeds. The second cycle captures
`adv100` again and runs up to the start of its confirmation wait. -/
def lateSyncRun : List Slot :=
  cycleHead timedOut [] ++
  [ { x := ok, after := [synced100] }, okSlot, okSlot,
    okSlot, { x := ok, after := [.scan adv100] }, okSlot, okSlot, okSlot, okSlot ]

/-- The first cycle of `lateSyncRun`, but with a late sync-terminated
notification, delivered after `sync_wait` was cleared at line 588. -/
def lateTermRun : List Slot :=
  cycleHead timedOut [] ++ [ okSlot, { x := ok, after := [term100] }, okSlot ]

/-- The run `lateTermRun` followed by a second cycle in which the sync is
established, up to the start of the wait for sync loss. -/
def lateTermNextCycle : List Slot :=
  lateTermRun ++
  [ okSlot, { x := ok, after := [.scan adv100] }, okSlot, okSlot, okSlot,
    { x := ok, after := [synced100] }, okSlot, okSlot, okSlot, okSlot, okSlot ]

/-- The part of the loop `main` can be in while no confirmation wait has
succeeded: every program point except those of the synced path (lines 597-611),
and at the test of line 581 only with a non-zero `err`. -/
def onAbandonPath (s : State) : Bool :=
  match s.pc with
  | .okClearWait => false
  | .enableCte => false
  | .scanDisable => false
  | .takeLost => false
  | .checkSync => s.err != 0
  | _ => true

/-- The state at the test of line 581 in the first cycle after boot, when the
sync-terminated notification arrived during the confirmation wait. -/
def terminatedAt : State :=
  (runSlots (cycleHead ok [term100]) (boot (some 7) 0)).getD (boot none 0)

/-- A run in which the first cycle after boot times out and deletes its sync,
and the second cycle captures `adv100` again and sets `sync_wait` at line 574;
the sync-terminated notification of the first cycle is delivered right after
that, before `sync_terminated` is cleared at line 575. -/
def staleTermHead : List Slot :=
  cycleHead timedOut [] ++
  [ okSlot, okSlot, okSlot,
    okSlot, { x := ok, after := [.scan adv100] }, okSlot, { x := ok, after := [term100] } ]

/-- Feed a list of scan reports to `scan_recv`, oldest first. -/
def scanAll (reports : List bt_le_scan_recv_info) (s : State) : State :=
  reports.foldl (fun st r => scan_recv r st) s

/-! ## The confirmation time-out -/

/-- The value of `sync_create_timeout_get` without the machine reductions. -/
theorem sync_create_timeout_get_eq (interval : Nat) (h : interval < 65536) :
    sync_create_timeout_get interval = 7 * (interval * 5 / 4) := by
  unfold sync_create_timeout_get BT_GAP_PER_ADV_INTERVAL_TO_MS UINT16_MOD UINT32_MOD
    SYNC_CREATE_TIMEOUT_INTERVAL_NUM
  norm_num
  rw [Nat.mod_eq_of_lt h, Nat.mod_eq_of_lt (by omega : interval * 5 < 4294967296)]
  rw [Nat.mod_eq_of_lt (by omega)]
  omega

/-- Claim C4: for every 16-bit periodic interval `sync_create_timeout_get`
returns exactly `7 * I` with `I = interval * 5 / 4` (integer division), the
value of `BT_GAP_PER_ADV_INTERVAL_TO_MS`; neither the product `interval * 5`
nor the product `I * 7` exceeds `INT_MAX`, so nothing wraps in 32-bit
arithmetic; and the result is at least 7 when the interval is not zero. -/
theorem C4_timeout_is_seven_intervals (interval : Nat) (h : interval < UINT16_MOD) :
    BT_GAP_PER_ADV_INTERVAL_TO_MS interval = interval * 5 / 4 ∧
    sync_create_timeout_get interval = 7 * (interval * 5 / 4) ∧
    sync_create_timeout_get interval = 7 * BT_GAP_PER_ADV_INTERVAL_TO_MS interval ∧
    interval * 5 ≤ INT_MAX ∧
    interval * 5 / 4 * SYNC_CREATE_TIMEOUT_INTERVAL_NUM ≤ INT_MAX ∧
    (interval ≠ 0 → 7 ≤ sync_create_timeout_get interval) := by
  have h16 : interval < 65536 := h
  have e := sync_create_timeout_get_eq interval h16
  have m : BT_GAP_PER_ADV_INTERVAL_TO_MS interval = interval * 5 / 4 := by
    unfold BT_GAP_PER_ADV_INTERVAL_TO_MS UINT32_MOD
    rw [Nat.mod_eq_of_lt (by omega)]
  refine ⟨m, e, by rw [e, m], ?_, ?_, ?_⟩
  · unfold INT_MAX; omega
  · unfold INT_MAX SYNC_CREATE_TIMEOUT_INTERVAL_NUM; omega
  · intro hne; rw [e]; omega

/-- Witness for C4: interval 100 is 125 ms and gives a deadline of 875 ms. -/
theorem C4_witness :
    (100 : Nat) < UINT16_MOD ∧ BT_GAP_PER_ADV_INTERVAL_TO_MS 100 = 125 ∧
    sync_create_timeout_get 100 = 875 :=
  ⟨by decide, (C4_timeout_is_seven_intervals 100 (by decide)).1.trans (by decide),
   (C4_timeout_is_seven_intervals 100 (by decide)).2.1.trans (by decide)⟩

/-- Claim C5: for every periodic interval in the legal range 6..65535 (units of
1.25 ms) the confirmation wait in milliseconds is strictly longer than six real
advertising intervals: `4 * timeout > 30 * interval`, that is
`timeout > 6 * interval * 5 / 4` over the rationals. -/
theorem C5_timeout_exceeds_six_intervals (interval : Nat) (hlo : 6 ≤ interval)
    (hhi : interval ≤ 65535) :
    30 * interval < 4 * sync_create_timeout_get interval ∧
    (6 * (interval : ℚ) * 5 / 4 < (sync_create_timeout_get interval : ℚ)) := by
  have e := sync_create_timeout_get_eq interval (by omega)
  have h1 : 30 * interval < 4 * sync_create_timeout_get interval := by rw [e]; omega
  refine ⟨h1, ?_⟩
  have h2 : ((30 * interval : Nat) : ℚ) < ((4 * sync_create_timeout_get interval : Nat) : ℚ) := by
    exact_mod_cast h1
  push_cast at h2
  linarith

/-- Witness for C5: the smallest legal interval, 6 (7.5 ms), waits 49 ms, more
than the 45 ms of six intervals. -/
theorem C5_witness :
    30 * 6 < 4 * sync_create_timeout_get 6 ∧
    (6 * ((6 : Nat) : ℚ) * 5 / 4 < (sync_create_timeout_get 6 : ℚ)) :=
  C5_timeout_exceeds_six_intervals 6 (by decide) (by decide)

/-! ## Frame properties of the callbacks -/

@[simp] theorem requests_append (a b : List Event) :
    requests (a ++ b) = requests a ++ requests b := by
  simp [requests, List.filterMap_append]

@[simp] theorem requests_iq_record (report : bt_df_per_adv_sync_iq_samples_report) :
    requests (iq_record report) = [] := by
  simp [requests, iq_record, iq_sample_lines, List.filterMap_eq_nil_iff]

@[simp] theorem deliver_pc (c : Callback) (s : State) : (deliver c s).pc = s.pc := by
  cases c <;> simp only [deliver, scan_recv, sync_cb, term_cb, recv_cb, cte_recv_cb, State.emit]
    <;> (repeat (first | split | rfl))

@[simp] theorem deliver_err (c : Callback) (s : State) : (deliver c s).err = s.err := by
  cases c <;> simp only [deliver, scan_recv, sync_cb, term_cb, recv_cb, cte_recv_cb, State.emit]
    <;> (repeat (first | split | rfl))

@[simp] theorem deliver_sync_wait (c : Callback) (s : State) :
    (deliver c s).sync_wait = s.sync_wait := by
  cases c <;> simp only [deliver, scan_recv, sync_cb, term_cb, recv_cb, cte_recv_cb, State.emit]
    <;> (repeat (first | split | rfl))

@[simp] theorem deliver_sync (c : Callback) (s : State) : (deliver c s).sync = s.sync := by
  cases c <;> simp only [deliver, scan_recv, sync_cb, term_cb, recv_cb, cte_recv_cb, State.emit]
    <;> (repeat (first | split | rfl))

@[simp] theorem deliver_requests (c : Callback) (s : State) :
    requests (deliver c s).trace = requests s.trace := by
  cases c <;> simp only [deliver, scan_recv, sync_cb, term_cb, recv_cb, cte_recv_cb, State.emit]
    <;> (repeat (first | split | rfl))
    <;> (try simp only [requests_append, requests_iq_record, List.append_nil])
    <;> simp [requests]

@[simp] theorem deliverAll_nil (s : State) : deliverAll [] s = s := rfl

@[simp] theorem deliverAll_cons (c : Callback) (cs : List Callback) (s : State) :
    deliverAll (c :: cs) s = deliverAll cs (deliver c s) := rfl

@[simp] theorem deliverAll_pc (cs : List Callback) (s : State) :
    (deliverAll cs s).pc = s.pc := by
  induction cs generalizing s with
  | nil => rfl
  | cons c cs ih => simp [ih]

@[simp] theorem deliverAll_err (cs : List Callback) (s : State) :
    (deliverAll cs s).err = s.err := by
  induction cs generalizing s with
  | nil => rfl
  | cons c cs ih => simp [ih]

@[simp] theorem deliverAll_sync_wait (cs : List Callback) (s : State) :
    (deliverAll cs s).sync_wait = s.sync_wait := by
  induction cs generalizing s with
  | nil => rfl
  | cons c cs ih => simp [ih]

@[simp] theorem deliverAll_sync (cs : List Callback) (s : State) :
    (deliverAll cs s).sync = s.sync := by
  induction cs generalizing s with
  | nil => rfl
  | cons c cs ih => simp [ih]

@[simp] theorem deliverAll_requests (cs : List Callback) (s : State) :
    requests (deliverAll cs s).trace = requests s.trace := by
  induction cs generalizing s with
  | nil => rfl
  | cons c cs ih => simp [ih]

/-! ## Schedules -/

@[simp] theorem exec_nil (s : State) : exec [] s = some s := rfl

@[simp] theorem exec_cons (a : Action) (as : List Action) (s : State) :
    exec (a :: as) s = (step a s).bind (exec as) := rfl

theorem exec_append (as bs : List Action) (s : State) :
    exec (as ++ bs) s = (exec as s).bind (exec bs) := by
  induction as generalizing s with
  | nil => simp
  | cons a as ih =>
      simp only [List.cons_append, exec_cons]
      cases step a s with
      | none => rfl
      | some t => simp [ih]

theorem exec_callbacks (cs : List Callback) (s : State) :
    exec (cs.map Action.cb) s = some (deliverAll cs s) := by
  induction cs generalizing s with
  | nil => rfl
  | cons c cs ih => simp [step, ih]

@[simp] theorem runSlots_nil (s : State) : runSlots [] s = some s := rfl

theorem runSlots_cons (p : Slot) (ps : List Slot) (s : State) :
    runSlots (p :: ps) s =
      (mainStep p.x s).bind (fun s1 => runSlots ps (deliverAll p.after s1)) := by
  unfold runSlots
  simp only [List.flatMap_cons, Slot.actions, List.cons_append, exec_cons, step]
  cases mainStep p.x s with
  | none => rfl
  | some t => simp [exec_append, exec_callbacks]

/-! ## The steps of `main`, one program point at a time -/

theorem ms_scanEnable (x : Ext) (s : State) (h : s.pc = .scanEnable) :
    ∃ s1, mainStep x s = some s1 ∧ s1.pc = .resetFound ∧
      requests s1.trace
        = requests s.trace ++ (if s.scan_enabled then [] else [Request.scan_start]) ∧
      s1.sync_wait = s.sync_wait ∧ s1.sync = s.sync := by
  simp only [mainStep, h]
  refine ⟨_, rfl, rfl, ?_, ?_, ?_⟩
  all_goals
    simp only [scan_enable, State.emit]
    cases s.scan_enabled <;> simp
    split <;> simp [requests]

theorem ms_resetFound (x : Ext) (s : State) (h : s.pc = .resetFound) :
    ∃ s1, mainStep x s = some s1 ∧ s1.pc = .takeAdv ∧ s1.per_adv_found = false ∧
      requests s1.trace = requests s.trace ∧
      s1.sync_wait = s.sync_wait ∧ s1.sync = s.sync ∧ s1.scan_enabled = s.scan_enabled := by
  simp only [mainStep, h]
  refine ⟨_, rfl, rfl, rfl, ?_, rfl, rfl, rfl⟩
  simp [requests]

theorem ms_takeAdv (x : Ext) (s s1 : State) (h : s.pc = .takeAdv)
    (hs : mainStep x s = some s1) :
    (s1.pc = .setWait ∨ s1.pc = .returned) ∧ requests s1.trace = requests s.trace ∧
      s1.sync = s.sync ∧ s1.scan_enabled = s.scan_enabled := by
  simp only [mainStep, h] at hs
  cases hk : k_sem_take s.sem_per_adv x.code with
  | none => simp [hk] at hs
  | some r =>
      obtain ⟨count, err⟩ := r
      simp only [hk] at hs
      split at hs <;> (injection hs with hs; subst hs; simp [requests])

theorem ms_setWait (x : Ext) (s : State) (h : s.pc = .setWait) :
    ∃ s1, mainStep x s = some s1 ∧ s1.pc = .clearTerminated ∧ s1.sync_wait = true ∧
      requests s1.trace = requests s.trace ∧ s1.sync = s.sync ∧
      s1.scan_enabled = s.scan_enabled := by
  simp only [mainStep, h]
  exact ⟨_, rfl, rfl, rfl, rfl, rfl, rfl⟩

theorem ms_clearTerminated (x : Ext) (s : State) (h : s.pc = .clearTerminated) :
    ∃ s1, mainStep x s = some s1 ∧ s1.pc = .createSync ∧ s1.sync_terminated = false ∧
      s1.sync_wait = s.sync_wait ∧
      requests s1.trace = requests s.trace ∧ s1.sync = s.sync ∧
      s1.scan_enabled = s.scan_enabled := by
  simp only [mainStep, h]
  exact ⟨_, rfl, rfl, rfl, rfl, rfl, rfl, rfl⟩

theorem ms_createSync (x : Ext) (s : State) (h : s.pc = .createSync) :
    ∃ s1, mainStep x s = some s1 ∧ s1.pc = .takeSync ∧ s1.sync_wait = s.sync_wait ∧
      requests s1.trace = requests s.trace ++ [Request.sync_create (create_param s)] ∧
      (x.code = 0 → s1.sync = some x.out) ∧ (x.code ≠ 0 → s1.sync = s.sync) ∧
      s1.scan_enabled = s.scan_enabled ∧ s1.sem_per_sync = s.sem_per_sync ∧
      s1.sync_terminated = s.sync_terminated := by
  simp only [mainStep, h]
  refine ⟨_, rfl, rfl, ?_, ?_, ?_, ?_, ?_, ?_, ?_⟩
  all_goals
    simp only [create_sync, State.emit]
    split <;> simp_all [requests]

theorem ms_takeSync (x : Ext) (s s1 : State) (h : s.pc = .takeSync)
    (hs : mainStep x s = some s1) :
    s1.pc = .checkSync ∧ s1.sync_wait = s.sync_wait ∧ requests s1.trace = requests s.trace ∧
      s1.sync = s.sync ∧ s1.scan_enabled = s.scan_enabled ∧
      s1.sync_terminated = s.sync_terminated ∧
      s1.sem_per_sync_lost = s.sem_per_sync_lost ∧
      (s1.err ≠ 0 → s.sem_per_sync = 0 ∧ s1.sem_per_sync = 0) ∧
      (s1.err = 0 → 0 < s.sem_per_sync) := by
  simp only [mainStep, h] at hs
  cases hk : k_sem_take s.sem_per_sync x.code with
  | none => simp [hk] at hs
  | some r =>
      obtain ⟨count, err⟩ := r
      simp only [hk] at hs
      injection hs with hs; subst hs
      unfold k_sem_take at hk
      split at hk
      · injection hk with hk; injection hk with h1 h2
        subst h1 h2; simp [requests]; omega
      · split at hk
        · injection hk with hk; injection hk with h1 h2
          subst h1 h2; simp [requests]
          exact ⟨fun _ => by omega, fun h0 => absurd h0 (by assumption)⟩
        · simp at hk

theorem ms_checkSync_ok (x : Ext) (s : State) (h : s.pc = .checkSync) (he : s.err = 0)
    (ht : s.sync_terminated = false) :
    ∃ s1, mainStep x s = some s1 ∧ s1.pc = .okClearWait ∧ s1.sync_wait = s.sync_wait ∧
      requests s1.trace = requests s.trace ∧ s1.sync = s.sync ∧
      s1.scan_enabled = s.scan_enabled := by
  simp only [mainStep, h, he, ht]
  refine ⟨_, rfl, rfl, rfl, ?_, rfl, rfl⟩
  simp [requests]

theorem ms_checkSync_fail (x : Ext) (s : State) (h : s.pc = .checkSync)
    (hf : s.err ≠ 0 ∨ s.sync_terminated = true) :
    ∃ s1, mainStep x s = some s1 ∧ s1.pc = .failClearWait ∧ s1.sync_wait = s.sync_wait ∧
      requests s1.trace = requests s.trace ∧ s1.sync = s.sync ∧
      s1.scan_enabled = s.scan_enabled := by
  simp only [mainStep, h]
  have hc : (s.err ≠ 0 || s.sync_terminated) = true := by
    rcases hf with h1 | h1
    · simp [h1]
    · simp [h1]
  rw [if_pos hc]
  split
  · refine ⟨_, rfl, rfl, rfl, ?_, rfl, rfl⟩
    simp [requests]
  · refine ⟨_, rfl, rfl, rfl, ?_, rfl, rfl⟩
    simp [requests]

theorem ms_failClearWait (x : Ext) (s : State) (h : s.pc = .failClearWait) :
    ∃ s1, mainStep x s = some s1 ∧ s1.pc = .deleteSync ∧ s1.sync_wait = false ∧
      requests s1.trace = requests s.trace ∧ s1.sync = s.sync ∧
      s1.scan_enabled = s.scan_enabled := by
  simp only [mainStep, h]
  exact ⟨_, rfl, rfl, rfl, rfl, rfl, rfl⟩

theorem ms_deleteSync (x : Ext) (s : State) (h : s.pc = .deleteSync) :
    ∃ s1, mainStep x s = some s1 ∧ s1.sync_wait = s.sync_wait ∧
      requests s1.trace = requests s.trace ++ [Request.sync_delete s.sync] ∧
      (x.code ≠ 0 → s1.pc = .returned) ∧ (x.code = 0 → s1.pc = .scanEnable) ∧
      s1.scan_enabled = s.scan_enabled := by
  simp only [mainStep, h, delete_sync, State.emit]
  by_cases hx : x.code = 0
  · simp [hx, requests]
  · simp [hx, requests]

theorem ms_okClearWait (x : Ext) (s : State) (h : s.pc = .okClearWait) :
    ∃ s1, mainStep x s = some s1 ∧ s1.pc = .enableCte ∧ s1.sync_wait = false ∧
      requests s1.trace = requests s.trace ∧ s1.sync = s.sync ∧
      s1.scan_enabled = s.scan_enabled := by
  simp only [mainStep, h]
  exact ⟨_, rfl, rfl, rfl, rfl, rfl, rfl⟩

theorem ms_enableCte (x : Ext) (s : State) (h : s.pc = .enableCte) :
    ∃ s1, mainStep x s = some s1 ∧ s1.pc = .scanDisable ∧ s1.sync_wait = s.sync_wait ∧
      requests s1.trace = requests s.trace ++ [Request.cte_rx_enable s.sync] ∧
      s1.sync = s.sync ∧ s1.scan_enabled = s.scan_enabled := by
  simp only [mainStep, h]
  refine ⟨_, rfl, rfl, ?_, ?_, ?_, ?_⟩
  all_goals
    simp only [enable_cte_rx, State.emit]
    split <;> simp [requests]

theorem ms_scanDisable (x : Ext) (s : State) (h : s.pc = .scanDisable) :
    ∃ s1, mainStep x s = some s1 ∧ s1.pc = .takeLost ∧ s1.sync_wait = s.sync_wait ∧
      requests s1.trace = requests s.trace ++ [Request.scan_stop] ∧
      s1.sync = s.sync := by
  simp only [mainStep, h]
  refine ⟨_, rfl, rfl, ?_, ?_, ?_⟩
  all_goals
    simp only [scan_disable, State.emit]
    split <;> simp [requests]

theorem ms_takeLost (x : Ext) (s s1 : State) (h : s.pc = .takeLost)
    (hs : mainStep x s = some s1) :
    (s1.pc = .scanEnable ∨ s1.pc = .returned) ∧ requests s1.trace = requests s.trace ∧
      s1.sync_wait = s.sync_wait ∧ s1.scan_enabled = s.scan_enabled := by
  simp only [mainStep, h] at hs
  cases hk : k_sem_take s.sem_per_sync_lost x.code with
  | none => simp [hk] at hs
  | some r =>
      obtain ⟨count, err⟩ := r
      simp only [hk] at hs
      split at hs <;> (injection hs with hs; subst hs; simp [requests])

theorem ms_returned (x : Ext) (s : State) (h : s.pc = .returned) : mainStep x s = none := by
  simp only [mainStep, h]

/-! ## From the start of a cycle to the end of the confirmation wait -/

/-- The first seven steps of a cycle, with any notifications in between, end at
the test of line 581 with `sync_wait` set; the requests issued are a scan start
(when scanning was off) and the create request. -/
theorem cycle_head (s0 s1 : State) (p1 p2 p3 p4 p5 p6 p7 : Slot)
    (h0 : s0.pc = .scanEnable)
    (hrun : runSlots [p1, p2, p3, p4, p5, p6, p7] s0 = some s1) :
    s1.pc = .checkSync ∧ s1.sync_wait = true ∧
    (∃ param, requests s1.trace
        = requests s0.trace ++ (if s0.scan_enabled then [] else [Request.scan_start])
          ++ [Request.sync_create param]) ∧
    (p6.x.code = 0 → s1.sync = some p6.x.out) ∧
    (p6.x.code ≠ 0 → s1.sync = s0.sync) := by
  obtain ⟨t1, e1, pc1, rq1, -, sy1⟩ := ms_scanEnable p1.x s0 h0
  rw [runSlots_cons, e1, Option.some_bind] at hrun
  obtain ⟨t2, e2, pc2, -, rq2, -, sy2, -⟩ :=
    ms_resetFound p2.x (deliverAll p1.after t1) (by simp [pc1])
  rw [runSlots_cons, e2, Option.some_bind] at hrun
  rw [runSlots_cons] at hrun
  cases e3 : mainStep p3.x (deliverAll p2.after t2) with
  | none => rw [e3] at hrun; simp at hrun
  | some t3 =>
    rw [e3, Option.some_bind] at hrun
    obtain ⟨pc3, rq3, sy3, -⟩ := ms_takeAdv p3.x _ t3 (by simp [pc2]) e3
    rcases pc3 with pc3 | pc3
    · obtain ⟨t4, e4, pc4, sw4, rq4, sy4, -⟩ :=
        ms_setWait p4.x (deliverAll p3.after t3) (by simp [pc3])
      rw [runSlots_cons, e4, Option.some_bind] at hrun
      obtain ⟨t5, e5, pc5, -, sw5, rq5, sy5, -⟩ :=
        ms_clearTerminated p5.x (deliverAll p4.after t4) (by simp [pc4])
      rw [runSlots_cons, e5, Option.some_bind] at hrun
      obtain ⟨t6, e6, pc6, sw6, rq6, sy6a, sy6b, -⟩ :=
        ms_createSync p6.x (deliverAll p5.after t5) (by simp [pc5])
      rw [runSlots_cons, e6, Option.some_bind] at hrun
      rw [runSlots_cons] at hrun
      cases e7 : mainStep p7.x (deliverAll p6.after t6) with
      | none => rw [e7] at hrun; simp at hrun
      | some t7 =>
        rw [e7, Option.some_bind, runSlots_nil] at hrun
        injection hrun with hrun
        obtain ⟨pc7, sw7, rq7, sy7, -⟩ := ms_takeSync p7.x _ t7 (by simp [pc6]) e7
        subst hrun
        simp only [deliverAll_pc, deliverAll_sync_wait, deliverAll_requests,
          deliverAll_sync] at *
        refine ⟨pc7, ?_, ⟨create_param (deliverAll p5.after t5), ?_⟩, ?_, ?_⟩
        · rw [sw7, sw6, sw5, sw4]
        · rw [rq7, rq6, rq5, rq4, rq3, rq2, rq1]
        · intro hc; rw [sy7, sy6a hc]
        · intro hc; rw [sy7, sy6b hc, sy5, sy4, sy3, sy2, sy1]
    · rw [runSlots_cons, ms_returned p4.x _ (by simp [pc3])] at hrun
      simp at hrun

/-! ## The branches of a cycle -/

/-- The abandon path of a cycle: when the test of line 581 sees a non-zero
`err` or a set `sync_terminated`, `sync_wait` is cleared, the requests of the
cycle are scan start (if scanning was off), create and delete, `main` returns
when the delete is rejected, and otherwise the next cycle starts with
`scan_enable`, the reset of `per_adv_found` and the wait for a candidate. -/
theorem abandon_tail
    (s0 s1 : State) (p1 p2 p3 p4 p5 p6 p7 q1 q2 q3 : Slot)
    (h0 : s0.pc = .scanEnable)
    (hrun : runSlots [p1, p2, p3, p4, p5, p6, p7] s0 = some s1)
    (hend : s1.err ≠ 0 ∨ s1.sync_terminated = true) :
    ∃ s2 param cyc,
      runSlots [q1, q2, q3] s1 = some s2 ∧
      s1.sync_wait = true ∧ s2.sync_wait = false ∧
      cyc = (if s0.scan_enabled then [] else [Request.scan_start])
        ++ [Request.sync_create param, Request.sync_delete s1.sync] ∧
      requests s2.trace = requests s0.trace ++ cyc ∧
      (cyc.filter Request.isDelete).length = 1 ∧
      (∀ r ∈ cyc, r.isCteEnable = false ∧ r.isScanStop = false) ∧
      (q3.x.code ≠ 0 → s2.pc = .returned) ∧
      (q3.x.code = 0 → s2.pc = .scanEnable ∧
        ∀ (q4 : Slot) (x5 : Ext), ∃ t s3,
          runSlots [q4] s2 = some t ∧ mainStep x5 t = some s3 ∧
          s3.pc = .takeAdv ∧ s3.per_adv_found = false ∧
          requests s3.trace
            = requests s2.trace ++ (if s2.scan_enabled then [] else [Request.scan_start])) := by
  obtain ⟨pc1, sw1, ⟨param, rq1⟩, -, -⟩ := cycle_head s0 s1 p1 p2 p3 p4 p5 p6 p7 h0 hrun
  obtain ⟨u1, e1, upc1, -, urq1, usy1, -⟩ := ms_checkSync_fail q1.x s1 pc1 hend
  obtain ⟨u2, e2, upc2, usw2, urq2, usy2, -⟩ :=
    ms_failClearWait q2.x (deliverAll q1.after u1) (by simp [upc1])
  obtain ⟨u3, e3, usw3, urq3, upc3a, upc3b, -⟩ :=
    ms_deleteSync q3.x (deliverAll q2.after u2) (by simp [upc2])
  simp only [deliverAll_pc, deliverAll_sync_wait, deliverAll_requests, deliverAll_sync] at *
  refine ⟨deliverAll q3.after u3, param, _, ?_, sw1, ?_, rfl, ?_, ?_, ?_, ?_, ?_⟩
  · rw [runSlots_cons, e1, Option.some_bind, runSlots_cons, e2, Option.some_bind,
      runSlots_cons, e3, Option.some_bind, runSlots_nil]
  · simp [usw3, usw2]
  · rw [deliverAll_requests, urq3, urq2, urq1, rq1, usy2, usy1]
    simp
  · cases hs : s0.scan_enabled <;> simp [Request.isDelete]
  · intro r hr
    cases hs : s0.scan_enabled
    · simp [hs] at hr
      rcases hr with rfl | rfl | rfl <;> exact ⟨rfl, rfl⟩
    · simp [hs] at hr
      rcases hr with rfl | rfl <;> exact ⟨rfl, rfl⟩
  · intro hx; simp [upc3a hx]
  · intro hx
    refine ⟨by simp [upc3b hx], ?_⟩
    intro q4 x5
    obtain ⟨v1, f1, vpc1, vrq1, -⟩ :=
      ms_scanEnable q4.x (deliverAll q3.after u3) (by simp [upc3b hx])
    obtain ⟨v2, f2, vpc2, vfound, vrq2, -⟩ :=
      ms_resetFound x5 (deliverAll q4.after v1) (by simp [vpc1])
    refine ⟨deliverAll q4.after v1, v2, ?_, f2, vpc2, vfound, ?_⟩
    · rw [runSlots_cons, f1, Option.some_bind, runSlots_nil]
    · rw [vrq2, deliverAll_requests, vrq1]

/-! ### Terminations during the confirmation wait -/

theorem deliver_sync_terminated_mono (c : Callback) (s : State)
    (h : s.sync_terminated = true) : (deliver c s).sync_terminated = true := by
  cases c with
  | scan info =>
      simp only [deliver, scan_recv]
      split <;> exact h
  | synced sync info => exact h
  | term sync info =>
      simp only [deliver, term_cb]
      split
      · rfl
      · exact h
  | recv sync info => exact h
  | cte report =>
      simp only [deliver, cte_recv_cb, State.emit]
      split
      · exact h
      · cases s.wdt <;> exact h

theorem deliverAll_sync_terminated_mono (cs : List Callback) (s : State)
    (h : s.sync_terminated = true) : (deliverAll cs s).sync_terminated = true := by
  induction cs generalizing s with
  | nil => exact h
  | cons c cs ih => exact ih _ (deliver_sync_terminated_mono c s h)

theorem deliver_sem_sync_pos (c : Callback) (s : State) (h : 0 < s.sem_per_sync) :
    0 < (deliver c s).sem_per_sync := by
  have hgive : ∀ n : Nat, 0 < k_sem_give n := by
    intro n; unfold k_sem_give; split <;> omega
  cases c with
  | scan info =>
      simp only [deliver, scan_recv]
      split <;> exact h
  | synced sync info => exact hgive _
  | term sync info =>
      simp only [deliver, term_cb]
      split
      · exact hgive _
      · exact h
  | recv sync info => exact h
  | cte report =>
      simp only [deliver, cte_recv_cb, State.emit]
      split
      · exact h
      · cases s.wdt <;> exact h

theorem deliverAll_sem_sync_pos (cs : List Callback) (s : State)
    (h : 0 < s.sem_per_sync) : 0 < (deliverAll cs s).sem_per_sync := by
  induction cs generalizing s with
  | nil => exact h
  | cons c cs ih => exact ih _ (deliver_sem_sync_pos c s h)

/-- With `sync_wait` set, `term_cb` sets `sync_terminated` and leaves a signal
on `sem_per_sync`. -/
theorem term_cb_waiting (sync : Nat) (info : bt_le_per_adv_sync_term_info) (s : State)
    (h : s.sync_wait = true) :
    (term_cb sync info s).sync_terminated = true ∧ 0 < (term_cb sync info s).sem_per_sync := by
  constructor
  · simp [term_cb, h]
  · simp only [term_cb, h, if_true]
    unfold k_sem_give; split <;> omega

/-- A sync-terminated notification among the notifications delivered while
`sync_wait` is set leaves `sync_terminated` set and a signal on `sem_per_sync`,
whatever else is delivered before and after it. -/
theorem deliverAll_term_waiting (cs : List Callback) (s : State)
    (sync : Nat) (info : bt_le_per_adv_sync_term_info)
    (h : s.sync_wait = true) (hmem : Callback.term sync info ∈ cs) :
    (deliverAll cs s).sync_terminated = true ∧ 0 < (deliverAll cs s).sem_per_sync := by
  induction cs generalizing s with
  | nil => simp at hmem
  | cons c cs ih =>
      rw [deliverAll_cons]
      rcases List.mem_cons.mp hmem with hc | hc
      · subst hc
        obtain ⟨a, b⟩ := term_cb_waiting sync info s h
        exact ⟨deliverAll_sync_terminated_mono cs _ a, deliverAll_sem_sync_pos cs _ b⟩
      · exact ih (deliver c s) (by rw [deliver_sync_wait]; exact h) hc

/-- A sync-terminated notification delivered after `sync_terminated` was
cleared at line 575 and before the test of line 581 is seen by that test; when
it is delivered before the confirmation wait returns, the wait returns 0. -/
theorem cycle_head_term (s0 s1 : State) (p1 p2 p3 p4 p5 p6 p7 : Slot)
    (sync : Nat) (info : bt_le_per_adv_sync_term_info)
    (h0 : s0.pc = .scanEnable)
    (hrun : runSlots [p1, p2, p3, p4, p5, p6, p7] s0 = some s1) :
    ((Callback.term sync info ∈ p5.after ∨ Callback.term sync info ∈ p6.after ∨
        Callback.term sync info ∈ p7.after) → s1.sync_terminated = true) ∧
    ((Callback.term sync info ∈ p5.after ∨ Callback.term sync info ∈ p6.after) →
        s1.err = 0) := by
  obtain ⟨t1, e1, pc1, -⟩ := ms_scanEnable p1.x s0 h0
  rw [runSlots_cons, e1, Option.some_bind] at hrun
  obtain ⟨t2, e2, pc2, -⟩ := ms_resetFound p2.x (deliverAll p1.after t1) (by simp [pc1])
  rw [runSlots_cons, e2, Option.some_bind] at hrun
  rw [runSlots_cons] at hrun
  cases e3 : mainStep p3.x (deliverAll p2.after t2) with
  | none => rw [e3] at hrun; simp at hrun
  | some t3 =>
    rw [e3, Option.some_bind] at hrun
    obtain ⟨pc3, -⟩ := ms_takeAdv p3.x _ t3 (by simp [pc2]) e3
    rcases pc3 with pc3 | pc3
    · obtain ⟨t4, e4, pc4, sw4, -⟩ :=
        ms_setWait p4.x (deliverAll p3.after t3) (by simp [pc3])
      rw [runSlots_cons, e4, Option.some_bind] at hrun
      obtain ⟨t5, e5, pc5, -, sw5, -⟩ :=
        ms_clearTerminated p5.x (deliverAll p4.after t4) (by simp [pc4])
      rw [runSlots_cons, e5, Option.some_bind] at hrun
      obtain ⟨t6, e6, pc6, sw6, -, -, -, -, se6, st6⟩ :=
        ms_createSync p6.x (deliverAll p5.after t5) (by simp [pc5])
      rw [runSlots_cons, e6, Option.some_bind] at hrun
      rw [runSlots_cons] at hrun
      cases e7 : mainStep p7.x (deliverAll p6.after t6) with
      | none => rw [e7] at hrun; simp at hrun
      | some t7 =>
        rw [e7, Option.some_bind, runSlots_nil] at hrun
        injection hrun with hrun
        obtain ⟨-, sw7, -, -, -, st7, -, hz, -⟩ :=
          ms_takeSync p7.x _ t7 (by simp [pc6]) e7
        subst hrun
        have w5 : t5.sync_wait = true := by
          rw [sw5, deliverAll_sync_wait]; exact sw4
        have w6 : t6.sync_wait = true := by
          rw [sw6, deliverAll_sync_wait]; exact w5
        have w7 : t7.sync_wait = true := by
          rw [sw7, deliverAll_sync_wait]; exact w6
        have from5 : Callback.term sync info ∈ p5.after →
            (deliverAll p6.after t6).sync_terminated = true ∧
            0 < (deliverAll p6.after t6).sem_per_sync := by
          intro hm
          obtain ⟨a, b⟩ := deliverAll_term_waiting p5.after t5 sync info w5 hm
          exact ⟨deliverAll_sync_terminated_mono _ _ (st6.trans a),
            deliverAll_sem_sync_pos _ _ (by rw [se6]; exact b)⟩
        have from6 : Callback.term sync info ∈ p6.after →
            (deliverAll p6.after t6).sync_terminated = true ∧
            0 < (deliverAll p6.after t6).sem_per_sync :=
          fun hm => deliverAll_term_waiting p6.after t6 sync info w6 hm
        constructor
        · rintro (hm | hm | hm)
          · exact deliverAll_sync_terminated_mono _ _ (st7.trans (from5 hm).1)
          · exact deliverAll_sync_terminated_mono _ _ (st7.trans (from6 hm).1)
          · exact (deliverAll_term_waiting p7.after t7 sync info w7 hm).1
        · intro hm
          have hpos : 0 < (deliverAll p6.after t6).sem_per_sync := by
            rcases hm with hm | hm
            · exact (from5 hm).2
            · exact (from6 hm).2
          rw [deliverAll_err]
          by_contra hne
          have := (hz hne).1
          omega
    · rw [runSlots_cons, ms_returned p4.x _ (by simp [pc3])] at hrun
      simp at hrun

/-- Counterexample to C2 as stated. The first cycle after boot times out and
deletes its sync. In the second cycle the sync-terminated notification of the
first arrives after `sync_wait` was set at line 574 and before line 575:
`term_cb` runs with `sync_wait` true, sets `sync_terminated` and gives
`sem_per_sync`. Line 575 clears the flag, the give ends the confirmation wait
with 0, the test of line 581 sees no termination, and the second cycle issues
a CTE-enable and a scan-stop request and no delete-sync request. -/
theorem C2_counterexample :
    (runSlots staleTermHead (boot (some 7) 0)).map
        (fun s => (s.pc, s.sync_wait, s.sync_terminated, s.sem_per_sync))
      = some (.clearTerminated, true, true, 1) ∧
    (runSlots (staleTermHead ++ [okSlot, okSlot]) (boot (some 7) 0)).map
        (fun s => (s.pc, s.sync_wait, s.sem_per_sync, requests s.trace))
      = some (.takeSync, true, 1,
          [Request.scan_start,
           Request.sync_create { addr := adv100.addr, options := 64, sid := 3, skip := 0,
                                 timeout := 10 },
           Request.sync_delete (some 1),
           Request.sync_create { addr := adv100.addr, options := 64, sid := 3, skip := 0,
                                 timeout := 10 }]) ∧
    (runSlots (staleTermHead ++ [okSlot, okSlot, okSlot]) (boot (some 7) 0)).map
        (fun s => (s.pc, s.err, s.sync_terminated)) = some (.checkSync, 0, false) ∧
    (runSlots (staleTermHead ++ [okSlot, okSlot, okSlot, okSlot, okSlot, okSlot, okSlot])
        (boot (some 7) 0)).map (fun s => (s.pc, requests s.trace))
      = some (.takeLost,
          [Request.scan_start,
           Request.sync_create { addr := adv100.addr, options := 64, sid := 3, skip := 0,
                                 timeout := 10 },
           Request.sync_delete (some 1),
           Request.sync_create { addr := adv100.addr, options := 64, sid := 3, skip := 0,
                                 timeout := 10 },
           Request.cte_rx_enable (some 1),
           Request.scan_stop]) := by
  refine ⟨rfl, rfl, rfl, rfl⟩

/-- Claim C2, amended: in every cycle of the loop of `main` (from `scan_enable`
on, with any notifications interleaved) in which the confirmation wait returned
non-zero (time-out), or in which `term_cb` runs after `sync_terminated` was
cleared at line 575 and before the test of line 581, the controller clears
`sync_wait` and issues exactly one delete-sync request; the requests of the
cycle are scan start (if scanning was off), create and delete, so no
CTE-enable and no scan-stop request is issued; `main` returns when the delete
is rejected, and when it succeeds the next cycle starts: `scan_enable`, then
`per_adv_found` is reset to false and `main` waits for a candidate. In the
termination case `term_cb` finds `sync_wait` set, so `sync_terminated` is set
at the test, and a termination delivered before the wait returns ends the wait
with 0. -/
theorem C2_amended_timeout_or_term_after_reset_deletes_once
    (s0 s1 : State) (p1 p2 p3 p4 p5 p6 p7 q1 q2 q3 : Slot)
    (sync : Nat) (info : bt_le_per_adv_sync_term_info)
    (h0 : s0.pc = .scanEnable)
    (hrun : runSlots [p1, p2, p3, p4, p5, p6, p7] s0 = some s1)
    (hend : s1.err ≠ 0 ∨ Callback.term sync info ∈ p5.after ∨
      Callback.term sync info ∈ p6.after ∨ Callback.term sync info ∈ p7.after) :
    ((Callback.term sync info ∈ p5.after ∨ Callback.term sync info ∈ p6.after ∨
        Callback.term sync info ∈ p7.after) → s1.sync_terminated = true) ∧
    ((Callback.term sync info ∈ p5.after ∨ Callback.term sync info ∈ p6.after) →
        s1.err = 0) ∧
    ∃ s2 param cyc,
      runSlots [q1, q2, q3] s1 = some s2 ∧
      s1.sync_wait = true ∧ s2.sync_wait = false ∧
      cyc = (if s0.scan_enabled then [] else [Request.scan_start])
        ++ [Request.sync_create param, Request.sync_delete s1.sync] ∧
      requests s2.trace = requests s0.trace ++ cyc ∧
      (cyc.filter Request.isDelete).length = 1 ∧
      (∀ r ∈ cyc, r.isCteEnable = false ∧ r.isScanStop = false) ∧
      (q3.x.code ≠ 0 → s2.pc = .returned) ∧
      (q3.x.code = 0 → s2.pc = .scanEnable ∧
        ∀ (q4 : Slot) (x5 : Ext), ∃ t s3,
          runSlots [q4] s2 = some t ∧ mainStep x5 t = some s3 ∧
          s3.pc = .takeAdv ∧ s3.per_adv_found = false ∧
          requests s3.trace
            = requests s2.trace ++ (if s2.scan_enabled then [] else [Request.scan_start])) := by
  obtain ⟨hflag, herr⟩ := cycle_head_term s0 s1 p1 p2 p3 p4 p5 p6 p7 sync info h0 hrun
  refine ⟨hflag, herr, ?_⟩
  apply abandon_tail s0 s1 p1 p2 p3 p4 p5 p6 p7 q1 q2 q3 h0 hrun
  rcases hend with h | h
  · exact Or.inl h
  · exact Or.inr (hflag h)

/-- Witness for C2 as amended, with interval 100 in the first cycle after boot.
Termination case: the sync-terminated notification arrives during the
confirmation wait; the wait returns 0, the test sees `sync_terminated`, and the
cycle issues one delete request and no CTE-enable request. Time-out case:
nothing arrives within the 875 ms of the wait, with the same requests. -/
theorem C2_witness :
    (boot (some 7) 0).pc = .scanEnable ∧
    runSlots (cycleHead ok [term100]) (boot (some 7) 0) = some terminatedAt ∧
    terminatedAt.sync_terminated = true ∧ terminatedAt.err = 0 ∧
    (∃ s2 param cyc,
      runSlots [okSlot, okSlot, okSlot] terminatedAt = some s2 ∧
      terminatedAt.sync_wait = true ∧ s2.sync_wait = false ∧
      cyc = (if (boot (some 7) 0).scan_enabled then [] else [Request.scan_start])
        ++ [Request.sync_create param, Request.sync_delete terminatedAt.sync] ∧
      requests s2.trace = requests (boot (some 7) 0).trace ++ cyc ∧
      (cyc.filter Request.isDelete).length = 1 ∧
      (∀ r ∈ cyc, r.isCteEnable = false ∧ r.isScanStop = false) ∧
      (okSlot.x.code ≠ 0 → s2.pc = .returned) ∧
      (okSlot.x.code = 0 → s2.pc = .scanEnable ∧
        ∀ (q4 : Slot) (x5 : Ext), ∃ t s3,
          runSlots [q4] s2 = some t ∧ mainStep x5 t = some s3 ∧
          s3.pc = .takeAdv ∧ s3.per_adv_found = false ∧
          requests s3.trace
            = requests s2.trace ++ (if s2.scan_enabled then [] else [Request.scan_start]))) ∧
    runSlots (cycleHead timedOut []) (boot (some 7) 0) = some timedOutAt ∧
    timedOutAt.sync_create_timeout_ms = 875 ∧ timedOutAt.err = -EAGAIN ∧
    (∃ s2 param cyc,
      runSlots [okSlot, okSlot, okSlot] timedOutAt = some s2 ∧
      timedOutAt.sync_wait = true ∧ s2.sync_wait = false ∧
      cyc = (if (boot (some 7) 0).scan_enabled then [] else [Request.scan_start])
        ++ [Request.sync_create param, Request.sync_delete timedOutAt.sync] ∧
      requests s2.trace = requests (boot (some 7) 0).trace ++ cyc ∧
      (cyc.filter Request.isDelete).length = 1 ∧
      (∀ r ∈ cyc, r.isCteEnable = false ∧ r.isScanStop = false) ∧
      (okSlot.x.code ≠ 0 → s2.pc = .returned) ∧
      (okSlot.x.code = 0 → s2.pc = .scanEnable ∧
        ∀ (q4 : Slot) (x5 : Ext), ∃ t s3,
          runSlots [q4] s2 = some t ∧ mainStep x5 t = some s3 ∧
          s3.pc = .takeAdv ∧ s3.per_adv_found = false ∧
          requests s3.trace
            = requests s2.trace ++ (if s2.scan_enabled then [] else [Request.scan_start]))) :=
  have h := C2_amended_timeout_or_term_after_reset_deletes_once (boot (some 7) 0) terminatedAt
    okSlot { x := ok, after := [.scan adv0, .scan adv100] } okSlot okSlot okSlot
    { x := ok, after := [term100] } okSlot okSlot okSlot okSlot
    0 { addr := adv100.addr } rfl rfl
    (Or.inr (Or.inr (Or.inl (List.mem_singleton.mpr rfl))))
  have k := C2_amended_timeout_or_term_after_reset_deletes_once (boot (some 7) 0) timedOutAt
    okSlot { x := ok, after := [.scan adv0, .scan adv100] } okSlot okSlot okSlot
    okSlot { x := timedOut, after := [] } okSlot okSlot okSlot
    0 { addr := adv100.addr } rfl rfl (Or.inl (by decide))
  ⟨rfl, rfl, h.1 (Or.inr (Or.inl (List.mem_singleton.mpr rfl))),
   h.2.1 (Or.inr (List.mem_singleton.mpr rfl)), h.2.2, rfl, rfl, rfl, k.2.2⟩

/-! ## Loss of an established sync -/

theorem scan_recv_ignored (r : bt_le_scan_recv_info) (s : State)
    (h : s.per_adv_found = true ∨ r.interval = 0) : scan_recv r s = s := by
  unfold scan_recv
  rcases h with h | h <;> simp [h]

theorem scan_recv_captures (r : bt_le_scan_recv_info) (s : State)
    (h : s.per_adv_found = false) (hr : r.interval ≠ 0) :
    scan_recv r s = { s with
      sync_create_timeout_ms := sync_create_timeout_get r.interval
      per_adv_found := true
      per_sid := r.sid
      per_addr := r.addr
      sem_per_adv := k_sem_give s.sem_per_adv
      trace := s.trace ++ [Event.give .per_adv] } := by
  unfold scan_recv
  simp [h, hr]

@[simp] theorem scanAll_nil (s : State) : scanAll [] s = s := rfl

@[simp] theorem scanAll_cons (r : bt_le_scan_recv_info) (rs : List bt_le_scan_recv_info)
    (s : State) : scanAll (r :: rs) s = scanAll rs (scan_recv r s) := rfl

theorem scanAll_append (as bs : List bt_le_scan_recv_info) (s : State) :
    scanAll (as ++ bs) s = scanAll bs (scanAll as s) := by
  simp [scanAll, List.foldl_append]

theorem scanAll_found (rs : List bt_le_scan_recv_info) (s : State)
    (h : s.per_adv_found = true) : scanAll rs s = s := by
  induction rs with
  | nil => rfl
  | cons r rs ih => rw [scanAll_cons, scan_recv_ignored r s (Or.inl h), ih]

theorem scanAll_found_of_mem (rs : List bt_le_scan_recv_info) (s : State)
    (h : ∃ r ∈ rs, r.interval ≠ 0) : (scanAll rs s).per_adv_found = true := by
  induction rs generalizing s with
  | nil => simp at h
  | cons r rs ih =>
      rw [scanAll_cons]
      by_cases hf : (scan_recv r s).per_adv_found = true
      · rw [scanAll_found rs _ hf]; exact hf
      · obtain ⟨r1, hmem, hne⟩ := h
        rcases List.mem_cons.mp hmem with rfl | hmem
        · exfalso
          apply hf
          by_cases hs : s.per_adv_found = true
          · rw [scan_recv_ignored r1 s (Or.inl hs)]; exact hs
          · rw [scan_recv_captures r1 s (by simpa using hs) hne]
        · exact ih _ ⟨r1, hmem, hne⟩

/-- Claim C6: for every finite sequence of scan reports delivered to
`scan_recv` after a reset (`per_adv_found` false, `sem_per_adv` empty): if some
report has a non-zero interval, the final state is the reset state with
`per_addr`, `per_sid` and `sync_create_timeout_ms` taken from the first such
report, `per_adv_found` set, and `sem_per_adv` given exactly once; a report
with interval 0 and a report that follows one with a non-zero interval leave
the whole state as it is (no capture, no signal); and if every report has
interval 0 the state is the reset state. -/
theorem C6_first_periodic_report_wins
    (s0 : State) (reports : List bt_le_scan_recv_info)
    (hfound : s0.per_adv_found = false) (hsem : s0.sem_per_adv = 0) :
    (∀ r, reports.find? (fun r => r.interval != 0) = some r →
      scanAll reports s0 = { s0 with
        sync_create_timeout_ms := sync_create_timeout_get r.interval
        per_adv_found := true
        per_sid := r.sid
        per_addr := r.addr
        sem_per_adv := 1
        trace := s0.trace ++ [Event.give .per_adv] } ∧
      gives .per_adv (scanAll reports s0).trace = gives .per_adv s0.trace + 1) ∧
    (∀ pre r post, reports = pre ++ r :: post →
      (r.interval = 0 ∨ ∃ r1 ∈ pre, r1.interval ≠ 0) →
      scanAll (pre ++ [r]) s0 = scanAll pre s0) ∧
    ((∀ r ∈ reports, r.interval = 0) → scanAll reports s0 = s0) := by
  refine ⟨?_, ?_, ?_⟩
  · have key : ∀ r, reports.find? (fun r => r.interval != 0) = some r →
        scanAll reports s0 = { s0 with
          sync_create_timeout_ms := sync_create_timeout_get r.interval
          per_adv_found := true
          per_sid := r.sid
          per_addr := r.addr
          sem_per_adv := 1
          trace := s0.trace ++ [Event.give .per_adv] } := by
      intro r hr
      induction reports with
      | nil => simp at hr
      | cons a rs ih =>
          rw [scanAll_cons]
          by_cases ha : a.interval = 0
          · rw [scan_recv_ignored a s0 (Or.inr ha)]
            apply ih
            simpa [List.find?_cons, ha] using hr
          · have : a = r := by simpa [List.find?_cons, ha] using hr
            subst this
            rw [scan_recv_captures a s0 hfound ha, scanAll_found _ _ rfl, hsem]
            rfl
    intro r hr
    refine ⟨key r hr, ?_⟩
    rw [key r hr]
    simp [gives, List.countP_append]
  · intro pre r post _ h
    rw [scanAll_append, scanAll_cons, scanAll_nil]
    rcases h with h | h
    · exact scan_recv_ignored r _ (Or.inr h)
    · exact scan_recv_ignored r _ (Or.inl (scanAll_found_of_mem pre s0 h))
  · intro h
    induction reports with
    | nil => rfl
    | cons a rs ih =>
        rw [scanAll_cons, scan_recv_ignored a s0 (Or.inr (h a (List.mem_cons_self _ _)))]
        exact ih (fun r hr => h r (List.mem_cons_of_mem _ hr))

/-- Witness for C6: of the reports with intervals 0, 100, 0, 80 the second is
captured (deadline 875 ms) and the semaphore is given once. -/
theorem C6_witness :
    (scanAll [adv0, adv100, adv0, adv80] (boot none 0)).per_addr = adv100.addr ∧
    (scanAll [adv0, adv100, adv0, adv80] (boot none 0)).per_sid = 3 ∧
    (scanAll [adv0, adv100, adv0, adv80] (boot none 0)).sync_create_timeout_ms = 875 ∧
    (scanAll [adv0, adv100, adv0, adv80] (boot none 0)).sem_per_adv = 1 ∧
    gives .per_adv (scanAll [adv0, adv100, adv0, adv80] (boot none 0)).trace = 1 :=
  have h := (C6_first_periodic_report_wins (boot none 0) [adv0, adv100, adv0, adv80]
    rfl rfl).1 adv100 rfl
  ⟨by rw [h.1], by rw [h.1]; rfl, by rw [h.1]; rfl, by rw [h.1], h.2.trans rfl⟩

/-! ## CTE reports and the watchdog -/

theorem logs_map_log {α : Type} (f : α → Log) (l : List α) :
    logs (l.map (fun a => Event.log (f a))) = l.map f := by
  induction l with
  | nil => rfl
  | cons a l ih =>
      simp only [logs, List.map_cons, List.filterMap_cons] at ih ⊢
      rw [ih]

theorem feeds_map_log {α : Type} (f : α → Log) (l : List α) :
    feeds (l.map (fun a => Event.log (f a))) = 0 := by
  induction l with
  | nil => rfl
  | cons a l ih =>
      simp only [feeds, List.map_cons, List.countP_cons] at ih ⊢
      rw [ih]; rfl

@[simp] theorem feeds_append (a b : List Event) : feeds (a ++ b) = feeds a + feeds b := by
  simp [feeds, List.countP_append]

@[simp] theorem logs_append (a b : List Event) : logs (a ++ b) = logs a ++ logs b := by
  simp [logs, List.filterMap_append]

theorem feeds_iq_record (report : bt_df_per_adv_sync_iq_samples_report) :
    feeds (iq_record report) = 0 := by
  unfold iq_record iq_sample_lines
  rw [feeds_append, feeds_append, feeds_map_log]
  rfl

theorem logs_iq_record_length (report : bt_df_per_adv_sync_iq_samples_report) :
    (logs (iq_record report)).length = report.sample_count + 3 := by
  unfold iq_record iq_sample_lines
  rw [logs_append, logs_append, logs_map_log]
  simp [logs]

/-- Counterexample to C9 as stated: with a watchdog installed, a report with a
CRC error leaves the state as it is; the watchdog is not fed. -/
theorem C9_counterexample :
    (boot (some 7) 0).wdt = some 7 ∧
    crcErrReport.packet_status ≠ BT_DF_CTE_CRC_OK ∧
    cte_recv_cb crcErrReport (boot (some 7) 0) = boot (some 7) 0 ∧
    feeds (cte_recv_cb crcErrReport (boot (some 7) 0)).trace = 0 ∧
    ¬ (feeds (cte_recv_cb crcErrReport (boot (some 7) 0)).trace
        = feeds (boot (some 7) 0).trace + 1) := by
  refine ⟨rfl, by decide, rfl, rfl, by decide⟩

/-- Claim C9, amended: a CTE report whose `packet_status` is not OK leaves the
whole state as it is: no output and no watchdog feed. A report whose
`packet_status` is OK feeds the watchdog exactly once when a watchdog device is
installed (not at all otherwise) and then prints one record: the header, the
seven fields, one line for each sample, the end line. -/
theorem C9_amended_bad_reports_dropped_before_feed
    (report : bt_df_per_adv_sync_iq_samples_report) (s : State) :
    (report.packet_status ≠ BT_DF_CTE_CRC_OK → cte_recv_cb report s = s) ∧
    (report.packet_status = BT_DF_CTE_CRC_OK →
      (∀ dev, s.wdt = some dev →
        (cte_recv_cb report s).trace
          = s.trace ++ Event.wdt_feed dev s.wdt_channel_id :: iq_record report) ∧
      (s.wdt = none → (cte_recv_cb report s).trace = s.trace ++ iq_record report) ∧
      feeds (cte_recv_cb report s).trace = feeds s.trace + (if s.wdt.isSome then 1 else 0) ∧
      logs (cte_recv_cb report s).trace = logs s.trace ++ logs (iq_record report) ∧
      (logs (iq_record report)).length = report.sample_count + 3) := by
  have hf := feeds_iq_record report
  have hl := logs_iq_record_length report
  constructor
  · intro h
    unfold BT_DF_CTE_CRC_OK at h
    simp [cte_recv_cb, h]
  · intro h
    unfold BT_DF_CTE_CRC_OK at h
    have e : cte_recv_cb report s
        = { (match s.wdt with
              | some dev => s.emit [Event.wdt_feed dev s.wdt_channel_id]
              | none => s) with
            lol := 1
            trace := (match s.wdt with
              | some dev => s.emit [Event.wdt_feed dev s.wdt_channel_id]
              | none => s).trace ++ iq_record report } := by
      simp [cte_recv_cb, h]
    rw [e]
    cases hw : s.wdt with
    | none =>
        refine ⟨by simp, by simp, ?_, ?_, hl⟩
        · simp [hf]
        · simp
    | some dev =>
        refine ⟨by simp [State.emit], by simp, ?_, ?_, hl⟩
        · have hc := feeds_append [Event.wdt_feed dev s.wdt_channel_id] (iq_record report)
          rw [List.singleton_append, hf] at hc
          simp [State.emit, hc]; rfl
        · simp [State.emit]; rfl

/-- Witness for C9 as amended: the good report feeds watchdog 7 once and prints
a record of five lines; the report with the CRC error changes nothing. -/
theorem C9_witness :
    cte_recv_cb crcErrReport (boot (some 7) 0) = boot (some 7) 0 ∧
    feeds (cte_recv_cb okReport (boot (some 7) 0)).trace = 1 ∧
    (logs (cte_recv_cb okReport (boot (some 7) 0)).trace).length = 5 :=
  ⟨(C9_amended_bad_reports_dropped_before_feed crcErrReport (boot (some 7) 0)).1 (by decide),
   ((C9_amended_bad_reports_dropped_before_feed okReport (boot (some 7) 0)).2 rfl).2.2.1.trans
     rfl,
   by rw [((C9_amended_bad_reports_dropped_before_feed okReport (boot (some 7) 0)).2
     rfl).2.2.2.1]; rfl⟩

/-! ## A rejected create request -/

/-- Counterexample to C7 as stated: after boot the host rejects the create
request with `-EIO`. `main` is then at the confirmation wait with no sync
handle, sleeps there, and when the wait times out it issues a delete-sync
request before the next cycle starts. -/
theorem C7_counterexample :
    rejected.code ≠ 0 ∧
    (runSlots rejectedCreateHead (boot (some 7) 0)).map (fun s => (s.pc, s.sync))
      = some (.takeSync, none) ∧
    runSlots (rejectedCreateHead ++ [okSlot]) (boot (some 7) 0) = none ∧
    (runSlots (rejectedCreateHead ++ [{ x := timedOut, after := [] }, okSlot, okSlot, okSlot])
        (boot (some 7) 0)).map (fun s => (s.pc, requests s.trace))
      = some (.scanEnable,
          [Request.scan_start,
           Request.sync_create { addr := adv100.addr, options := 64, sid := 3, skip := 0,
                                 timeout := 10 },
           Request.sync_delete none]) := by
  refine ⟨by decide, rfl, rfl, rfl⟩

/-- Claim C7, amended: when the host rejects the create-sync request,
`create_sync` prints the failure and leaves the sync handle as it was, and
`main`, which gets no result from `create_sync`, goes on to the confirmation
wait on `sem_per_sync`: it sleeps there as long as the semaphore is empty and
the wait has not timed out, and until that wait ends the only request of the
step is the rejected create (no delete-sync, CTE-enable or scan-stop request).
What follows the wait is the test of line 581. -/
theorem C7_amended_rejected_create_still_waits
    (s : State) (x : Ext) (h : s.pc = .createSync) (hrej : x.code ≠ 0) :
    ∃ s1, mainStep x s = some s1 ∧
      s1.trace = s.trace ++
        [Event.log .creating_sync, Event.req (.sync_create (create_param s)) x.code,
         Event.log (.failed x.code), Event.log .waiting_per_sync] ∧
      s1.sync = s.sync ∧ s1.pc = .takeSync ∧
      ∀ cbs : List Callback,
        requests (deliverAll cbs s1).trace
          = requests s.trace ++ [Request.sync_create (create_param s)] ∧
        (∀ y : Ext, (deliverAll cbs s1).sem_per_sync = 0 → y.code = 0 →
          mainStep y (deliverAll cbs s1) = none) ∧
        (∀ (y : Ext) (s2 : State), mainStep y (deliverAll cbs s1) = some s2 →
          s2.pc = .checkSync ∧
          requests s2.trace = requests s.trace ++ [Request.sync_create (create_param s)] ∧
          s2.sync = s.sync) := by
  obtain ⟨s1, e1, pc1, -, rq1, -, sy1, -⟩ := ms_createSync x s h
  have htr : s1.trace = s.trace ++
      [Event.log .creating_sync, Event.req (.sync_create (create_param s)) x.code,
       Event.log (.failed x.code), Event.log .waiting_per_sync] := by
    simp only [mainStep, h, create_sync, State.emit, if_pos hrej] at e1
    injection e1 with e1
    subst e1
    simp
  refine ⟨s1, e1, htr, sy1 hrej, pc1, ?_⟩
  intro cbs
  refine ⟨by rw [deliverAll_requests, rq1], ?_, ?_⟩
  · intro y hsem hy
    have hp : (deliverAll cbs s1).pc = .takeSync := by simp [pc1]
    simp only [mainStep, hp, k_sem_take, hsem, hy]
    simp
  · intro y s2 hs2
    obtain ⟨a, -, b, c, -⟩ := ms_takeSync y _ s2 (by simp [pc1]) hs2
    refine ⟨a, by rw [b, deliverAll_requests, rq1], by rw [c, deliverAll_sync, sy1 hrej]⟩

/-- Witness for C7 as amended: the rejected create of the first cycle after
boot. -/
theorem C7_witness :
    createAt.pc = .createSync ∧ rejected.code ≠ 0 ∧
    ∃ s1, mainStep rejected createAt = some s1 ∧
      s1.trace = createAt.trace ++
        [Event.log .creating_sync,
         Event.req (.sync_create (create_param createAt)) rejected.code,
         Event.log (.failed rejected.code), Event.log .waiting_per_sync] ∧
      s1.sync = createAt.sync ∧ s1.pc = .takeSync ∧
      ∀ cbs : List Callback,
        requests (deliverAll cbs s1).trace
          = requests createAt.trace ++ [Request.sync_create (create_param createAt)] ∧
        (∀ y : Ext, (deliverAll cbs s1).sem_per_sync = 0 → y.code = 0 →
          mainStep y (deliverAll cbs s1) = none) ∧
        (∀ (y : Ext) (s2 : State), mainStep y (deliverAll cbs s1) = some s2 →
          s2.pc = .checkSync ∧
          requests s2.trace
            = requests createAt.trace ++ [Request.sync_create (create_param createAt)] ∧
          s2.sync = createAt.sync) :=
  ⟨rfl, by decide,
   C7_amended_rejected_create_still_waits createAt rejected rfl (by decide)⟩

/-! ## Rejected requests -/

/-- A step of `main` issues no request, or one request that is not a delete and
does not end in a return, or the delete request, after which `main` returns
exactly when the delete was rejected. -/
theorem mainStep_request (x : Ext) (s s1 : State) (hs : mainStep x s = some s1) :
    requests s1.trace = requests s.trace ∨
    (∃ r, requests s1.trace = requests s.trace ++ [r] ∧ r.isDelete = false ∧
      s1.pc ≠ .returned) ∨
    (∃ r, requests s1.trace = requests s.trace ++ [r] ∧ r.isDelete = true ∧
      s.pc = .deleteSync ∧ (s1.pc = .returned ↔ x.code ≠ 0)) := by
  cases hpc : s.pc
  · obtain ⟨t, e, pc, rq, -⟩ := ms_scanEnable x s hpc
    rw [e] at hs; injection hs with hs; subst hs
    cases hse : s.scan_enabled
    · right; left
      exact ⟨Request.scan_start, by simpa [hse] using rq, rfl, by simp [pc]⟩
    · left; simpa [hse] using rq
  · obtain ⟨t, e, -, -, rq, -⟩ := ms_resetFound x s hpc
    rw [e] at hs; injection hs with hs; subst hs
    exact Or.inl rq
  · exact Or.inl (ms_takeAdv x s s1 hpc hs).2.1
  · obtain ⟨t, e, -, -, rq, -⟩ := ms_setWait x s hpc
    rw [e] at hs; injection hs with hs; subst hs
    exact Or.inl rq
  · obtain ⟨t, e, -, -, -, rq, -⟩ := ms_clearTerminated x s hpc
    rw [e] at hs; injection hs with hs; subst hs
    exact Or.inl rq
  · obtain ⟨t, e, pc, -, rq, -⟩ := ms_createSync x s hpc
    rw [e] at hs; injection hs with hs; subst hs
    exact Or.inr (Or.inl ⟨Request.sync_create (create_param s), rq, rfl, by simp [pc]⟩)
  · exact Or.inl (ms_takeSync x s s1 hpc hs).2.2.1
  · by_cases hc : s.err = 0 ∧ s.sync_terminated = false
    · obtain ⟨t, e, -, -, rq, -⟩ := ms_checkSync_ok x s hpc hc.1 hc.2
      rw [e] at hs; injection hs with hs; subst hs
      exact Or.inl rq
    · have hf : s.err ≠ 0 ∨ s.sync_terminated = true := by
        by_cases he : s.err = 0
        · right
          cases ht : s.sync_terminated
          · exact absurd ⟨he, ht⟩ hc
          · rfl
        · exact Or.inl he
      obtain ⟨t, e, -, -, rq, -⟩ := ms_checkSync_fail x s hpc hf
      rw [e] at hs; injection hs with hs; subst hs
      exact Or.inl rq
  · obtain ⟨t, e, -, -, rq, -⟩ := ms_failClearWait x s hpc
    rw [e] at hs; injection hs with hs; subst hs
    exact Or.inl rq
  · obtain ⟨t, e, -, rq, pca, pcb, -⟩ := ms_deleteSync x s hpc
    rw [e] at hs; injection hs with hs; subst hs
    refine Or.inr (Or.inr ⟨Request.sync_delete s.sync, rq, rfl, rfl, ?_⟩)
    constructor
    · intro hr hx
      rw [pcb hx] at hr
      exact absurd hr (by decide)
    · exact pca
  · obtain ⟨t, e, -, -, rq, -⟩ := ms_okClearWait x s hpc
    rw [e] at hs; injection hs with hs; subst hs
    exact Or.inl rq
  · obtain ⟨t, e, pc, -, rq, -⟩ := ms_enableCte x s hpc
    rw [e] at hs; injection hs with hs; subst hs
    exact Or.inr (Or.inl ⟨Request.cte_rx_enable s.sync, rq, rfl, by simp [pc]⟩)
  · obtain ⟨t, e, pc, -, rq, -⟩ := ms_scanDisable x s hpc
    rw [e] at hs; injection hs with hs; subst hs
    exact Or.inr (Or.inl ⟨Request.scan_stop, rq, rfl, by simp [pc]⟩)
  · exact Or.inl (ms_takeLost x s s1 hpc hs).2.1
  · rw [ms_returned x s hpc] at hs
    exact absurd hs (by simp)

/-- After a return of `main` no schedule issues a request. -/
theorem exec_returned (acts : List Action) (s s2 : State) (h : s.pc = .returned)
    (he : exec acts s = some s2) :
    s2.pc = .returned ∧ requests s2.trace = requests s.trace := by
  induction acts generalizing s with
  | nil =>
      simp only [exec_nil] at he
      injection he with he; subst he
      exact ⟨h, rfl⟩
  | cons a as ih =>
      rw [exec_cons] at he
      cases a with
      | main x =>
          simp only [step, ms_returned x s h] at he
          exact absurd he (by simp)
      | cb c =>
          simp only [step, Option.some_bind] at he
          obtain ⟨a1, a2⟩ := ih (deliver c s) (by simp [h]) he
          exact ⟨a1, by rw [a2, deliver_requests]⟩

/-- Claim C8: among the requests `main` issues in its loop, a rejection stops
the loop if and only if the rejected request is the delete-sync request. For
every step of `main` that issues a request which the host rejects, `main` has
returned after the step exactly when the request is a delete. A rejected delete
makes `main` return at once, and no schedule issues a further request after
it. A rejected scan start, create, CTE enable or scan stop leaves `main` at the
statement that follows the call. -/
theorem C8_only_rejected_delete_stops_main (s : State) (x : Ext) (hx : x.code ≠ 0) :
    (∀ s1 r, mainStep x s = some s1 → requests s1.trace = requests s.trace ++ [r] →
      (s1.pc = .returned ↔ r.isDelete = true)) ∧
    (s.pc = .deleteSync → ∃ s1, mainStep x s = some s1 ∧ s1.pc = .returned ∧
      requests s1.trace = requests s.trace ++ [Request.sync_delete s.sync] ∧
      ∀ acts s2, exec acts s1 = some s2 →
        s2.pc = .returned ∧ requests s2.trace = requests s1.trace) ∧
    (s.pc = .scanEnable → s.scan_enabled = false → ∃ s1, mainStep x s = some s1 ∧
      requests s1.trace = requests s.trace ++ [Request.scan_start] ∧ s1.pc = .resetFound) ∧
    (s.pc = .createSync → ∃ s1, mainStep x s = some s1 ∧
      requests s1.trace = requests s.trace ++ [Request.sync_create (create_param s)] ∧
      s1.pc = .takeSync) ∧
    (s.pc = .enableCte → ∃ s1, mainStep x s = some s1 ∧
      requests s1.trace = requests s.trace ++ [Request.cte_rx_enable s.sync] ∧
      s1.pc = .scanDisable) ∧
    (s.pc = .scanDisable → ∃ s1, mainStep x s = some s1 ∧
      requests s1.trace = requests s.trace ++ [Request.scan_stop] ∧ s1.pc = .takeLost) := by
  refine ⟨?_, ?_, ?_, ?_, ?_, ?_⟩
  · intro s1 r hs hr
    rcases mainStep_request x s s1 hs with h | ⟨r1, h, hd, hp⟩ | ⟨r1, h, hd, -, hp⟩
    · rw [h] at hr
      exact absurd (List.self_eq_append_right.mp hr) (by simp)
    · rw [h] at hr
      have : r1 = r := by simpa using hr
      subst this
      simp [hd, hp]
    · rw [h] at hr
      have : r1 = r := by simpa using hr
      subst this
      simp [hd, hp, hx]
  · intro hpc
    obtain ⟨s1, e, -, rq, pca, -⟩ := ms_deleteSync x s hpc
    exact ⟨s1, e, pca hx, rq, fun acts s2 h2 => exec_returned acts s1 s2 (pca hx) h2⟩
  · intro hpc hse
    obtain ⟨s1, e, pc, rq, -⟩ := ms_scanEnable x s hpc
    exact ⟨s1, e, by simpa [hse] using rq, pc⟩
  · intro hpc
    obtain ⟨s1, e, pc, -, rq, -⟩ := ms_createSync x s hpc
    exact ⟨s1, e, rq, pc⟩
  · intro hpc
    obtain ⟨s1, e, pc, -, rq, -⟩ := ms_enableCte x s hpc
    exact ⟨s1, e, rq, pc⟩
  · intro hpc
    obtain ⟨s1, e, pc, -, rq, -⟩ := ms_scanDisable x s hpc
    exact ⟨s1, e, rq, pc⟩

/-- Witness for C8: in the first cycle after boot the host rejects the delete
request that follows the time-out, and `main` returns; it rejects the create
request, and `main` goes on to the confirmation wait. -/
theorem C8_witness :
    rejected.code ≠ 0 ∧ deleteAt.pc = .deleteSync ∧ createAt.pc = .createSync ∧
    (∃ s1, mainStep rejected deleteAt = some s1 ∧ s1.pc = .returned ∧
      requests s1.trace = requests deleteAt.trace ++ [Request.sync_delete deleteAt.sync] ∧
      ∀ acts s2, exec acts s1 = some s2 →
        s2.pc = .returned ∧ requests s2.trace = requests s1.trace) ∧
    (∃ s1, mainStep rejected createAt = some s1 ∧
      requests s1.trace
        = requests createAt.trace ++ [Request.sync_create (create_param createAt)] ∧
      s1.pc = .takeSync) :=
  ⟨by decide, rfl, rfl,
   (C8_only_rejected_delete_stops_main deleteAt rejected (by decide)).2.1 rfl,
   (C8_only_rejected_delete_stops_main createAt rejected (by decide)).2.2.2.1 rfl⟩

/-! ## Late notifications -/

theorem scan_enable_sems (r : Int) (s : State) :
    (scan_enable r s).1.sem_per_sync = s.sem_per_sync ∧
    (scan_enable r s).1.sem_per_sync_lost = s.sem_per_sync_lost := by
  unfold scan_enable State.emit
  split
  · split <;> exact ⟨rfl, rfl⟩
  · exact ⟨rfl, rfl⟩

theorem create_sync_sems (x : Ext) (s : State) :
    (create_sync x s).sem_per_sync = s.sem_per_sync ∧
    (create_sync x s).sem_per_sync_lost = s.sem_per_sync_lost := by
  unfold create_sync State.emit
  split <;> exact ⟨rfl, rfl⟩

theorem delete_sync_sems (r : Int) (s : State) :
    (delete_sync r s).1.sem_per_sync = s.sem_per_sync ∧
    (delete_sync r s).1.sem_per_sync_lost = s.sem_per_sync_lost := by
  unfold delete_sync State.emit
  split <;> exact ⟨rfl, rfl⟩

/-- While `sem_per_sync` is empty a step of `main` keeps it empty, leaves
`sem_per_sync_lost` as it is, and stays off the synced path. -/
theorem abandon_main (x : Ext) (s s1 : State) (hs : mainStep x s = some s1)
    (h0 : s.sem_per_sync = 0) (hreg : onAbandonPath s = true) :
    s1.sem_per_sync = 0 ∧ s1.sem_per_sync_lost = s.sem_per_sync_lost ∧
      onAbandonPath s1 = true := by
  cases hpc : s.pc <;> simp only [onAbandonPath, hpc] at hreg <;>
    simp only [mainStep, hpc] at hs
  case scanEnable =>
    injection hs with hs; subst hs
    exact ⟨(scan_enable_sems _ s).1.trans h0, (scan_enable_sems _ s).2, rfl⟩
  case resetFound =>
    injection hs with hs; subst hs
    exact ⟨h0, rfl, rfl⟩
  case takeAdv =>
    cases hk : k_sem_take s.sem_per_adv x.code with
    | none => simp [hk] at hs
    | some r =>
        obtain ⟨count, err⟩ := r
        simp only [hk] at hs
        split at hs <;> (injection hs with hs; subst hs; exact ⟨h0, rfl, rfl⟩)
  case setWait =>
    injection hs with hs; subst hs
    exact ⟨h0, rfl, rfl⟩
  case clearTerminated =>
    injection hs with hs; subst hs
    exact ⟨h0, rfl, rfl⟩
  case createSync =>
    injection hs with hs; subst hs
    exact ⟨(create_sync_sems _ s).1.trans h0, (create_sync_sems _ s).2, rfl⟩
  case takeSync =>
    simp only [k_sem_take, h0, Nat.lt_irrefl, if_false] at hs
    split at hs
    · simp at hs
    · rename_i count err heq
      injection hs with hs; subst hs
      split at heq
      · injection heq with heq; injection heq with h1 h2
        subst h1 h2
        refine ⟨rfl, rfl, ?_⟩
        simp only [onAbandonPath]
        simpa using (by assumption : x.code ≠ 0)
      · simp at heq
  case checkSync =>
    have he : s.err ≠ 0 := by simpa using hreg
    simp only [he, ne_eq, not_false_eq_true, decide_True, Bool.true_or, if_true] at hs
    injection hs with hs; subst hs
    exact ⟨h0, rfl, rfl⟩
  case failClearWait =>
    injection hs with hs; subst hs
    exact ⟨h0, rfl, rfl⟩
  case deleteSync =>
    split at hs
    · injection hs with hs; subst hs
      exact ⟨(delete_sync_sems _ s).1.trans h0, (delete_sync_sems _ s).2, rfl⟩
    · injection hs with hs; subst hs
      exact ⟨(delete_sync_sems _ s).1.trans h0, (delete_sync_sems _ s).2, rfl⟩
  case okClearWait => simp at hreg
  case enableCte => simp at hreg
  case scanDisable => simp at hreg
  case takeLost => simp at hreg
  case returned => simp at hs
/-- A notification other than sync-established or sync-terminated touches
neither `sem_per_sync` nor `sem_per_sync_lost`. -/
theorem deliver_other_sems (c : Callback) (s : State) (hc : c.isSyncEvent = false) :
    (deliver c s).sem_per_sync = s.sem_per_sync ∧
    (deliver c s).sem_per_sync_lost = s.sem_per_sync_lost := by
  cases c with
  | scan info =>
      simp only [deliver, scan_recv]
      split <;> exact ⟨rfl, rfl⟩
  | synced sync info => simp [Callback.isSyncEvent] at hc
  | term sync info => simp [Callback.isSyncEvent] at hc
  | recv sync info => exact ⟨rfl, rfl⟩
  | cte report =>
      simp only [deliver, cte_recv_cb, State.emit]
      split
      · exact ⟨rfl, rfl⟩
      · cases s.wdt <;> exact ⟨rfl, rfl⟩

theorem deliver_onAbandonPath (c : Callback) (s : State) :
    onAbandonPath (deliver c s) = onAbandonPath s := by
  simp only [onAbandonPath, deliver_pc, deliver_err]

/-- Without sync-established and sync-terminated notifications an empty
`sem_per_sync` stays empty along every schedule, `sem_per_sync_lost` keeps its
count, and `main` stays off the synced path. -/
theorem exec_abandon (acts : List Action) (s s2 : State)
    (hno : ∀ c, Action.cb c ∈ acts → c.isSyncEvent = false)
    (h0 : s.sem_per_sync = 0) (hreg : onAbandonPath s = true)
    (he : exec acts s = some s2) :
    s2.sem_per_sync = 0 ∧ s2.sem_per_sync_lost = s.sem_per_sync_lost ∧
      onAbandonPath s2 = true := by
  induction acts generalizing s with
  | nil =>
      simp only [exec_nil] at he
      injection he with he; subst he
      exact ⟨h0, rfl, hreg⟩
  | cons a as ih =>
      rw [exec_cons] at he
      have hno1 : ∀ c, Action.cb c ∈ as → c.isSyncEvent = false :=
        fun c hc => hno c (List.mem_cons_of_mem _ hc)
      cases a with
      | main x =>
          simp only [step] at he
          cases hm : mainStep x s with
          | none => rw [hm] at he; exact absurd he (by simp)
          | some t =>
              rw [hm, Option.some_bind] at he
              obtain ⟨a1, a2, a3⟩ := abandon_main x s t hm h0 hreg
              obtain ⟨b1, b2, b3⟩ := ih t hno1 a1 a3 he
              exact ⟨b1, b2.trans a2, b3⟩
      | cb c =>
          simp only [step, Option.some_bind] at he
          obtain ⟨a1, a2⟩ := deliver_other_sems c s (hno c (List.mem_cons_self _ _))
          obtain ⟨b1, b2, b3⟩ :=
            ih (deliver c s) hno1 (a1.trans h0) ((deliver_onAbandonPath c s).trans hreg) he
          exact ⟨b1, b2.trans a2, b3⟩

/-- Counterexample to C10 as stated. After boot the confirmation wait of the
first cycle times out with both semaphores empty; the sync-established
notification that arrives after the abandon branch was taken leaves a signal on
`sem_per_sync`; that signal is still pending when the second cycle starts its
confirmation wait, and it resolves that wait with 0. A sync-terminated
notification that arrives after `sync_wait` was cleared leaves a signal on
`sem_per_sync_lost` in the same way: it is pending when the second cycle starts
its wait for sync loss and ends that wait with 0, with no termination in the
second cycle. -/
theorem C10_counterexample :
    (runSlots (cycleHead timedOut [] ++ [okSlot]) (boot (some 7) 0)).map
        (fun s => (s.pc, s.sem_per_sync, s.sem_per_sync_lost))
      = some (.failClearWait, 0, 0) ∧
    (runSlots (cycleHead timedOut [] ++ [{ x := ok, after := [synced100] }])
        (boot (some 7) 0)).map (fun s => (s.pc, s.sem_per_sync, s.sem_per_sync_lost))
      = some (.failClearWait, 1, 0) ∧
    (runSlots lateSyncRun (boot (some 7) 0)).map (fun s => (s.pc, s.sem_per_sync))
      = some (.takeSync, 1) ∧
    (runSlots (lateSyncRun ++ [okSlot, okSlot]) (boot (some 7) 0)).map
        (fun s => (s.pc, s.err)) = some (.okClearWait, 0) ∧
    (runSlots lateTermRun (boot (some 7) 0)).map
        (fun s => (s.pc, s.sem_per_sync, s.sem_per_sync_lost))
      = some (.scanEnable, 0, 1) ∧
    (runSlots lateTermNextCycle (boot (some 7) 0)).map
        (fun s => (s.pc, s.sem_per_sync_lost)) = some (.takeLost, 1) ∧
    (runSlots (lateTermNextCycle ++ [okSlot]) (boot (some 7) 0)).map
        (fun s => (s.pc, s.err)) = some (.scanEnable, 0) := by
  refine ⟨rfl, rfl, rfl, rfl, rfl, rfl, rfl⟩

/-- Claim C10, amended. A notification that arrives after the time-out branch
of a cycle was taken is not ignored: `sync_cb` always leaves a signal on
`sem_per_sync`, and `term_cb` leaves one on `sem_per_sync` (when `sync_wait` is
set) or on `sem_per_sync_lost` (when it is not). What holds is this: when a
confirmation wait ends by time-out `sem_per_sync` is empty, and along every
interleaving of `main` with the callbacks in which no sync-established or
sync-terminated notification is delivered after that time-out, `sem_per_sync`
is still empty and `sem_per_sync_lost` has its old count at every later point,
in particular when a later confirmation wait starts, and `main` never enters
the synced path. -/
theorem C10_amended_late_events_stay_pending
    (s s1 : State) (x : Ext) (h : s.pc = .takeSync) (hs : mainStep x s = some s1)
    (herr : s1.err ≠ 0) :
    s1.sem_per_sync = 0 ∧
    (∀ (t : State) sync info, 0 < (sync_cb sync info t).sem_per_sync) ∧
    (∀ (t : State) sync info,
      (t.sync_wait = true → 0 < (term_cb sync info t).sem_per_sync) ∧
      (t.sync_wait = false → 0 < (term_cb sync info t).sem_per_sync_lost)) ∧
    (∀ acts s2, (∀ c, Action.cb c ∈ acts → c.isSyncEvent = false) →
      exec acts s1 = some s2 →
      s2.sem_per_sync = 0 ∧ s2.sem_per_sync_lost = s1.sem_per_sync_lost ∧
      onAbandonPath s2 = true) := by
  obtain ⟨pc1, -, -, -, -, -, -, hz, -⟩ := ms_takeSync x s s1 h hs
  have hgive : ∀ n : Nat, 0 < k_sem_give n := by
    intro n; unfold k_sem_give; split <;> omega
  refine ⟨(hz herr).2, ?_, ?_, ?_⟩
  · intro t sync info
    exact hgive _
  · intro t sync info
    constructor
    · intro hw
      simp only [term_cb, hw, if_true]
      exact hgive _
    · intro hw
      simp only [term_cb, hw, Bool.false_eq_true, if_false]
      exact hgive _
  · intro acts s2 hno he
    refine exec_abandon acts s1 s2 hno (hz herr).2 ?_ he
    simp only [onAbandonPath, pc1]
    simpa using herr

/-- Witness for C10 as amended: the time-out of the first confirmation wait
after boot, followed by the rest of the cycle and the start of the next one
with only a scan report delivered. -/
theorem C10_witness :
    waitAt.pc = .takeSync ∧ mainStep timedOut waitAt = some timedOutAt ∧
    timedOutAt.err ≠ 0 ∧ timedOutAt.sem_per_sync = 0 ∧
    (∀ s2,
      exec [.main ok, .main ok, .main ok, .main ok, .main ok, .cb (.scan adv100), .main ok]
        timedOutAt = some s2 →
      s2.sem_per_sync = 0 ∧ s2.sem_per_sync_lost = timedOutAt.sem_per_sync_lost ∧
      onAbandonPath s2 = true) :=
  ⟨rfl, rfl, by decide,
   (C10_amended_late_events_stay_pending waitAt timedOutAt timedOut rfl rfl (by decide)).1,
   fun s2 =>
    (C10_amended_late_events_stay_pending waitAt timedOutAt timedOut rfl rfl
      (by decide)).2.2.2 _ s2 (by intro c hc; simp at hc; subst hc; rfl)⟩

end DfRx
